import Mathlib

/-!
# traceroute: the probing loop of `TraceRoute.Do`

A shallow embedding of `traceroute.go`.  `Do` talks to the operating system
(resolver, raw socket, clock) and to the `icmp` codec; all of these are
collected in a `World`, whose answers are fixed for one run.  The function
`Do` below sequences the calls exactly as the Go source does and returns the
two Go return values together with the log of socket operations performed.
-/

namespace Traceroute

/-! ## Data model -/

/-- A byte slice. -/
abbrev Bytes := List Nat

/-- Go `net.IP`: a byte slice; the nil slice is the empty list. -/
abbrev IP := List Nat

/-- A Go `error` value.  `Timeout` is the result of the test
`err.(net.Error)` succeeding and `err.Timeout()` being true. -/
structure Error where
  msg : String
  Timeout : Bool
deriving DecidableEq, Repr

/-- Package variable `ErrRemoteAddr = errors.New("RemoteAddr error")`. -/
def ErrRemoteAddr : Error := ⟨"RemoteAddr error", false⟩

/-- A Go `net.Addr` interface value, given by the results of its two methods. -/
structure Addr where
  Network : String
  String : String
deriving DecidableEq, Repr

/-- Struct `TraceRoute`; `Timeout` is a `time.Duration` in nanoseconds. -/
structure TraceRoute where
  LocalAddr : String
  RemoteAddr : String
  MaxTTL : Int
  Timeout : Int
deriving DecidableEq, Repr

/-- Struct `Result`; `RTT` is a `time.Duration` in nanoseconds. -/
structure Result where
  ID : Int
  IP : String
  RTT : Int
deriving DecidableEq, Repr

/-- Constructor `New`. -/
def New (remote : String) : TraceRoute :=
  { LocalAddr := "0.0.0.0", RemoteAddr := remote, MaxTTL := 30, Timeout := 3 * 1000000000 }

/-- Struct `icmp.Echo`. -/
structure Echo where
  ID : Int
  Seq : Int
  Data : Bytes
deriving DecidableEq, Repr

/-- The `icmp.MessageBody` implementations a message can carry. -/
inductive MessageBody where
  | Echo (e : Echo)
  | TimeExceeded (Data : Bytes)
  | DstUnreach (Data : Bytes)
  | RawBody (Data : Bytes)
deriving DecidableEq, Repr

/-- Struct `icmp.Message`; `Type_` is field `Type`, an `ipv4.ICMPType` number. -/
structure Message where
  Type_ : Int
  Code : Int
  Checksum : Int
  Body : MessageBody
deriving DecidableEq, Repr

/-- Constant `ipv4.ICMPTypeEchoReply`. -/
def ICMPTypeEchoReply : Int := 0

/-- Constant `ipv4.ICMPTypeEcho`. -/
def ICMPTypeEcho : Int := 8

/-- Constant `ipv4.ICMPTypeTimeExceeded`. -/
def ICMPTypeTimeExceeded : Int := 11

/-- Largest `time.Duration`. -/
def maxDuration : Int := 2 ^ 63 - 1

/-- Smallest `time.Duration`. -/
def minDuration : Int := -(2 ^ 63)

/-- Go `time.Since(begin)` when the clock reads `now`: the difference `now - begin`,
saturated to the range of `time.Duration`. -/
def Since (begin now : Int) : Int :=
  if now - begin > maxDuration then maxDuration
  else if now - begin < minDuration then minDuration
  else now - begin

/-- Go `net.IP.To4`: the 4-byte form of an IPv4 address, or nil (the empty list). -/
def To4 (ip : IP) : IP :=
  if ip.length = 4 then ip
  else if ip.length = 16 ∧ ip.take 10 = List.replicate 10 0 ∧ (ip.drop 10).take 2 = [255, 255] then
    ip.drop 12
  else []

/-! ## The environment of one run -/

/-- What the socket and the clock answer during the loop iteration for one TTL value. -/
structure Probe where
  /-- result of `p.SetTTL(i)` -/
  SetTTL : Option Error
  /-- clock reading of `begin := time.Now()` -/
  begin : Int
  /-- error result of `p.WriteTo(wb, nil, &dst)` -/
  WriteTo : Option Error
  /-- result of `p.SetReadDeadline(time.Now().Add(t.Timeout))` in this run -/
  SetReadDeadline : Option Error
  /-- result of `p.ReadFrom(rb)`: an error, or the received bytes `rb[:n]` and the peer -/
  ReadFrom : Except Error (Bytes × Addr)
  /-- clock reading inside `time.Since(begin)` -/
  now : Int

/-- Everything outside `traceroute.go` that `Do` calls. -/
structure World where
  /-- function `net.LookupIP` -/
  LookupIP : String → Except Error (List IP)
  /-- error result of `net.ListenPacket(network, address)` -/
  ListenPacket : String → String → Option Error
  /-- result of `p.SetControlMessage(...)` -/
  SetControlMessage : Option Error
  /-- function `os.Getpid` -/
  Getpid : Int
  /-- method `icmp.Message.Marshal(nil)` -/
  Marshal : Message → Except Error Bytes
  /-- function `icmp.ParseMessage(proto, b)` -/
  ParseMessage : Int → Bytes → Except Error Message
  /-- the answers during the iteration with loop variable `i` -/
  probe : Int → Probe

/-- A socket operation visible outside the process. -/
inductive Event where
  /-- the raw socket was opened by `net.ListenPacket` -/
  | ListenPacket (network address : String)
  /-- `p.WriteTo(wb, nil, &dst)` was called while the socket's TTL option was `ttl` -/
  | WriteTo (wb : Bytes) (ttl : Int) (dst : IP)
  /-- the deferred `c.Close()` ran -/
  | Close
deriving DecidableEq, Repr

/-- The two return values of `Do`, and the socket operations it performed, in order. -/
structure Outcome where
  result : List Result
  err : Option Error
  log : List Event
deriving DecidableEq, Repr

/-- The local variables of `Do` that are live in the loop, the TTL option of the
socket, and the log so far. -/
structure State where
  /-- variable `dst.IP` -/
  dst : IP
  /-- the `icmp.Echo` that `wm.Body` points to -/
  echo : Echo
  /-- the socket's TTL option (0: not set yet) -/
  ttl : Int
  /-- variable `result` -/
  result : List Result
  log : List Event
deriving DecidableEq, Repr

/-- The message `wm`: the literal of the source, with `Body` pointing to `e`. -/
def wm (e : Echo) : Message :=
  { Type_ := ICMPTypeEcho, Code := 0, Checksum := 0, Body := .Echo e }

/-- Outcome of one execution of the loop body. -/
inductive Ctl where
  /-- fell through to `i++` (also by `continue`) -/
  | next (s : State)
  /-- a `return` statement -/
  | ret (o : Outcome)

/-! ## The code -/

/-- The `for _, ip := range ips` loop of `Do`: the value of `dst.IP` after it. -/
def selectDst : List IP → IP
  | [] => []
  | ip :: ips => if To4 ip ≠ [] then ip else selectDst ips

/-- Statement `result = append(result, r)`. -/
def State.append (s : State) (r : Result) : State :=
  { s with result := s.result ++ [r] }

/-- Statement `return result, err`. -/
def State.ret (s : State) (err : Option Error) : Ctl :=
  .ret ⟨s.result, err, s.log⟩

/-- The body of `for i := 1; i < t.MaxTTL; i++`. -/
def body (w : World) (i : Int) (s : State) : Ctl :=
  -- wm.Body.(*icmp.Echo).Seq = i
  let s := { s with echo := { s.echo with Seq := i } }
  -- wb, err := wm.Marshal(nil)
  match w.Marshal (wm s.echo) with
  | .error err => s.ret (some err)
  | .ok wb =>
    -- p.SetTTL(i)
    match (w.probe i).SetTTL with
    | some err => s.ret (some err)
    | none =>
      let s := { s with ttl := i }
      -- begin := time.Now()
      let begin := (w.probe i).begin
      -- p.WriteTo(wb, nil, &dst)
      let s := { s with log := s.log ++ [Event.WriteTo wb s.ttl s.dst] }
      match (w.probe i).WriteTo with
      | some err => s.ret (some err)
      | none =>
        -- p.SetReadDeadline(time.Now().Add(t.Timeout))
        match (w.probe i).SetReadDeadline with
        | some err => s.ret (some err)
        | none =>
          -- n, _, peer, err := p.ReadFrom(rb)
          match (w.probe i).ReadFrom with
          | .error err =>
            -- if err, ok := err.(net.Error); ok && err.Timeout() { append; continue }
            if err.Timeout then .next (s.append { ID := i, IP := "*", RTT := 0 })
            else s.ret (some err)
          | .ok (b, peer) =>
            -- rm, err := icmp.ParseMessage(1, rb[:n])
            match w.ParseMessage 1 b with
            | .error err => s.ret (some err)
            | .ok rm =>
              -- rtt := time.Since(begin)
              let rtt := Since begin (w.probe i).now
              -- switch rm.Type
              if rm.Type_ = ICMPTypeTimeExceeded then
                .next (s.append { ID := i, IP := peer.String, RTT := rtt })
              else if rm.Type_ = ICMPTypeEchoReply then
                (s.append { ID := i, IP := peer.String, RTT := rtt }).ret none
              else
                .next (s.append { ID := i, IP := "*", RTT := 0 })

/-- The loop `for i := 1; i < t.MaxTTL; i++ { ... }` followed by `return result, nil`,
started at loop variable `i`.  The first argument bounds the number of iterations;
`Do` passes the number of values from 1 below `MaxTTL`, and `loop_fuel` shows that
a larger bound gives the same outcome. -/
def loop (w : World) (t : TraceRoute) : Nat → Int → State → Outcome
  | 0, _, s => ⟨s.result, none, s.log⟩
  | n + 1, i, s =>
    if i < t.MaxTTL then
      match body w i s with
      | .next s' => loop w t n (i + 1) s'
      | .ret o => o
    else ⟨s.result, none, s.log⟩

/-- The deferred `c.Close()`, run when `Do` returns `o`. -/
def Outcome.close (o : Outcome) : Outcome :=
  { o with log := o.log ++ [Event.Close] }

/-- The part of `Do` before the loop: an early return, or the state in which the
loop is entered. -/
def setup (w : World) (t : TraceRoute) : Except Outcome State :=
  -- ips, err := net.LookupIP(t.RemoteAddr)
  match w.LookupIP t.RemoteAddr with
  | .error err => .error ⟨[], some err, []⟩
  | .ok ips =>
    let dst := selectDst ips
    -- if dst.IP == nil { return nil, ErrRemoteAddr }
    if dst = [] then .error ⟨[], some ErrRemoteAddr, []⟩
    else
      -- c, err := net.ListenPacket("ip4:icmp", t.LocalAddr)
      match w.ListenPacket "ip4:icmp" t.LocalAddr with
      | some err => .error ⟨[], some err, []⟩
      | none =>
        let log := [Event.ListenPacket "ip4:icmp" t.LocalAddr]
        -- defer c.Close(); p.SetControlMessage(...)
        match w.SetControlMessage with
        | some err => .error (Outcome.close ⟨[], some err, log⟩)
        | none =>
          -- wm := icmp.Message{...}; var result []Result
          .ok { dst := dst,
                echo := { ID := w.Getpid % 65536, Seq := 0, Data := [82, 45, 85, 45, 79, 75, 63] },
                ttl := 0, result := [], log := log }

/-- Method `TraceRoute.Do`. -/
def Do (w : World) (t : TraceRoute) : Outcome :=
  match setup w t with
  | .error o => o
  | .ok s =>
    (loop w t (t.MaxTTL - 1).toNat 1 s).close

/-! ## Vocabulary of the statements -/

/-- The run reaches the test `i < t.MaxTTL` with loop variable `i` in state `s`. -/
inductive LoopHead (w : World) (t : TraceRoute) : Int → State → Prop where
  | init {s : State} : setup w t = .ok s → LoopHead w t 1 s
  | step {i : Int} {s s' : State} :
      LoopHead w t i s → i < t.MaxTTL → body w i s = .next s' → LoopHead w t (i + 1) s'

/-- The Echo Request that the iteration with loop variable `i` marshals. -/
def echoRequest (w : World) (i : Int) : Message :=
  wm { ID := w.Getpid % 65536, Seq := i, Data := [82, 45, 85, 45, 79, 75, 63] }

/-- The probe with TTL `i` is sent and the read deadline is set without failure. -/
def Sent (w : World) (i : Int) : Prop :=
  (∃ wb, w.Marshal (echoRequest w i) = .ok wb) ∧ (w.probe i).SetTTL = none ∧
    (w.probe i).WriteTo = none ∧ (w.probe i).SetReadDeadline = none

/-- The probe with TTL `i` is answered: it is sent, and the receive returns bytes
from `peer` that parse to the message `rm`. -/
def Answered (w : World) (i : Int) (peer : Addr) (rm : Message) : Prop :=
  Sent w i ∧ ∃ b, (w.probe i).ReadFrom = .ok (b, peer) ∧ w.ParseMessage 1 b = .ok rm

/-- The receive for the probe with TTL `i` times out. -/
def TimedOut (w : World) (i : Int) : Prop :=
  Sent w i ∧ ∃ err, (w.probe i).ReadFrom = .error err ∧ err.Timeout = true

/-- The probe with TTL `i` hits a fatal failure `err`: in marshalling, in `SetTTL`, in
the send, in setting the read deadline, in a receive error that is not a timeout, or
in parsing the received bytes. -/
def Fatal (w : World) (i : Int) (err : Error) : Prop :=
  w.Marshal (echoRequest w i) = .error err ∨
  ((∃ wb, w.Marshal (echoRequest w i) = .ok wb) ∧
    ((w.probe i).SetTTL = some err ∨
     ((w.probe i).SetTTL = none ∧
      ((w.probe i).WriteTo = some err ∨
       ((w.probe i).WriteTo = none ∧
        ((w.probe i).SetReadDeadline = some err ∨
         ((w.probe i).SetReadDeadline = none ∧
          (((w.probe i).ReadFrom = .error err ∧ err.Timeout = false) ∨
           ∃ b peer, (w.probe i).ReadFrom = .ok (b, peer) ∧
             w.ParseMessage 1 b = .error err))))))))

/-- The packets handed to `WriteTo` in a log, in order: bytes, TTL, destination. -/
def sends : List Event → List (Bytes × Int × IP)
  | [] => []
  | Event.WriteTo wb ttl dst :: l => (wb, ttl, dst) :: sends l
  | _ :: l => sends l

/-- The list `[1, 2, ..., n]` of loop-variable values. -/
def upTo (n : Nat) : List Int :=
  (List.range n).map (fun (k : Nat) => (k : Int) + 1)

/-- The hop that `Do` records for an answer from `peer` to the probe at TTL `i`:
`Result{ID: i, IP: peer.String(), RTT: rtt}` with `rtt := time.Since(begin)`. -/
def hop (w : World) (i : Int) (peer : Addr) : Result :=
  { ID := i, IP := peer.String, RTT := Since (w.probe i).begin (w.probe i).now }

/-- The hops of the first `n` probes when probe `j` is answered by `peer j`. -/
def hops (w : World) (peer : Int → Addr) (n : Nat) : List Result :=
  (List.range n).map (fun (m : Nat) => hop w ((m : Int) + 1) (peer ((m : Int) + 1)))

/-- The receive for the probe at TTL `i` has the same class in both worlds: both fail
with a timeout or with the same error, or both return a message from the same peer,
and the two messages fail to parse with the same error or parse to the same type. -/
def SameAnswer (w₁ w₂ : World) (i : Int) : Prop :=
  match (w₁.probe i).ReadFrom, (w₂.probe i).ReadFrom with
  | .error e₁, .error e₂ => (e₁.Timeout = true ∧ e₂.Timeout = true) ∨ e₁ = e₂
  | .ok (b₁, p₁), .ok (b₂, p₂) =>
    p₁ = p₂ ∧
      (match w₁.ParseMessage 1 b₁, w₂.ParseMessage 1 b₂ with
       | .error e₁, .error e₂ => e₁ = e₂
       | .ok m₁, .ok m₂ => m₁.Type_ = m₂.Type_
       | _, _ => False)
  | _, _ => False

/-- Two worlds answer a run over `t` alike except for the contents of the received
messages (bytes, code, checksum and body). -/
structure SameButContent (w₁ w₂ : World) (t : TraceRoute) : Prop where
  lookup : w₁.LookupIP t.RemoteAddr = w₂.LookupIP t.RemoteAddr
  listen : w₁.ListenPacket "ip4:icmp" t.LocalAddr = w₂.ListenPacket "ip4:icmp" t.LocalAddr
  control : w₁.SetControlMessage = w₂.SetControlMessage
  pid : w₁.Getpid = w₂.Getpid
  marshal : ∀ m, w₁.Marshal m = w₂.Marshal m
  setTTL : ∀ i, (w₁.probe i).SetTTL = (w₂.probe i).SetTTL
  begin : ∀ i, (w₁.probe i).begin = (w₂.probe i).begin
  writeTo : ∀ i, (w₁.probe i).WriteTo = (w₂.probe i).WriteTo
  deadline : ∀ i, (w₁.probe i).SetReadDeadline = (w₂.probe i).SetReadDeadline
  now : ∀ i, (w₁.probe i).now = (w₂.probe i).now
  answer : ∀ i, SameAnswer w₁ w₂ i

/-- What holds whenever the loop head is reached with loop variable `i`, for a loop
entered with destination `d`. -/
structure Inv (w : World) (t : TraceRoute) (d : IP) (i : Int) (s : State) : Prop where
  pos : 1 ≤ i
  le : i ≤ max 1 t.MaxTTL
  dst : s.dst = d
  echoID : s.echo.ID = w.Getpid % 65536
  echoData : s.echo.Data = [82, 45, 85, 45, 79, 75, 63]
  len : (s.result.length : Int) = i - 1
  ids : s.result.map (fun r => r.ID) = upTo s.result.length
  nsends : (sends s.log).length = s.result.length
  ttls : (sends s.log).map (fun p => p.2.1) = upTo s.result.length
  pkts : ∀ p ∈ sends s.log, p.2.2 = d ∧ w.Marshal (echoRequest w p.2.1) = .ok p.1

/-- What holds of every outcome of the loop entered with destination `d`. -/
structure OutInv (w : World) (t : TraceRoute) (d : IP) (o : Outcome) : Prop where
  len : (o.result.length : Int) ≤ max 0 (t.MaxTTL - 1)
  ids : o.result.map (fun r => r.ID) = upTo o.result.length
  ttls : (sends o.log).map (fun p => p.2.1) = upTo (sends o.log).length
  pkts : ∀ p ∈ sends o.log, p.2.2 = d ∧ w.Marshal (echoRequest w p.2.1) = .ok p.1

/-- The state at the loop head with loop variable `n + 1`, when the run gets there. -/
def headState (w : World) (t : TraceRoute) : Nat → Option State
  | 0 =>
    match setup w t with
    | .ok s => some s
    | .error _ => none
  | n + 1 =>
    match headState w t n with
    | none => none
    | some s =>
      if (n : Int) + 1 < t.MaxTTL then
        match body w ((n : Int) + 1) s with
        | .next s' => some s'
        | .ret _ => none
      else none

/-! ## Example runs -/

/-- A toy codec for outgoing messages: type, code, two zero bytes, then identifier,
sequence number and data of an echo body. -/
def exMarshal (m : Message) : Except Error Bytes :=
  match m.Body with
  | .Echo e =>
    .ok ([m.Type_.toNat, m.Code.toNat, 0, 0, e.ID.toNat / 256, e.ID.toNat % 256,
          e.Seq.toNat / 256, e.Seq.toNat % 256] ++ e.Data)
  | _ => .error ⟨"invalid body", false⟩

/-- A toy codec for incoming messages, the inverse of `exMarshal` on echo messages. -/
def exParse (_proto : Int) (b : Bytes) : Except Error Message :=
  match b with
  | ty :: code :: _ :: _ :: rest =>
    if ty = 0 ∨ ty = 8 then
      match rest with
      | a :: b :: c :: d :: data =>
        .ok ⟨ty, code, 0, .Echo ⟨(a : Int) * 256 + b, (c : Int) * 256 + d, data⟩⟩
      | _ => .error ⟨"message too short", false⟩
    else .ok ⟨ty, code, 0, .RawBody rest⟩
  | _ => .error ⟨"message too short", false⟩

/-- An IPv4 peer address. -/
def exAddr (s : String) : Addr := ⟨"ip", s⟩

/-- A world in which the resolver returns `ips`, the setup and every send succeed, the
clock advances by 7 between send and classification, and the receive for TTL `i`
returns `answer i`. -/
def exWorldOf (ips : List IP) (answer : Int → Except Error (Bytes × Addr)) : World where
  LookupIP := fun _ => .ok ips
  ListenPacket := fun _ _ => none
  SetControlMessage := none
  Getpid := 70000
  Marshal := exMarshal
  ParseMessage := exParse
  probe := fun i =>
    { SetTTL := none, begin := 1000 * i, WriteTo := none, SetReadDeadline := none,
      ReadFrom := answer i, now := 1000 * i + 7 }

/-- Candidates: an IPv6 address, then 10.0.0.9. -/
def exIPs : List IP := [[32, 1, 13, 184, 0, 0, 0, 0, 0, 0, 0, 0, 0, 0, 0, 1], [10, 0, 0, 9]]

/-- Hop 1 answers Time Exceeded, hop 2 is silent, hop 3 answers Destination
Unreachable, hop 4 is the destination and answers with an Echo Reply that carries
identifier 9 and sequence number 9. -/
def exAnswer (i : Int) : Except Error (Bytes × Addr) :=
  if i = 1 then .ok ([11, 0, 0, 0], exAddr "10.0.0.1")
  else if i = 2 then .error ⟨"i/o timeout", true⟩
  else if i = 3 then .ok ([3, 1, 0, 0], exAddr "10.0.0.3")
  else .ok ([0, 0, 0, 0, 0, 9, 0, 9, 82], exAddr "10.0.0.9")

/-- The example run: four hops, the fourth being the destination. -/
def exWorld : World := exWorldOf exIPs exAnswer

/-- The default config for the host `example.com`. -/
def exT : TraceRoute := New "example.com"

/-- The state of the run of `exWorld` at the loop head for TTL 2. -/
def exS1 : State :=
  { dst := [10, 0, 0, 9],
    echo := { ID := 4464, Seq := 1, Data := [82, 45, 85, 45, 79, 75, 63] },
    ttl := 1,
    result := [{ ID := 1, IP := "10.0.0.1", RTT := 7 }],
    log := [Event.ListenPacket "ip4:icmp" "0.0.0.0",
            Event.WriteTo [8, 0, 0, 0, 17, 112, 0, 1, 82, 45, 85, 45, 79, 75, 63] 1 [10, 0, 0, 9]] }

/-- The state of the run of `exWorld` at the loop head for TTL 4. -/
def exS3 : State :=
  { dst := [10, 0, 0, 9],
    echo := { ID := 4464, Seq := 3, Data := [82, 45, 85, 45, 79, 75, 63] },
    ttl := 3,
    result := [{ ID := 1, IP := "10.0.0.1", RTT := 7 }, { ID := 2, IP := "*", RTT := 0 },
               { ID := 3, IP := "*", RTT := 0 }],
    log := [Event.ListenPacket "ip4:icmp" "0.0.0.0",
            Event.WriteTo [8, 0, 0, 0, 17, 112, 0, 1, 82, 45, 85, 45, 79, 75, 63] 1 [10, 0, 0, 9],
            Event.WriteTo [8, 0, 0, 0, 17, 112, 0, 2, 82, 45, 85, 45, 79, 75, 63] 2 [10, 0, 0, 9],
            Event.WriteTo [8, 0, 0, 0, 17, 112, 0, 3, 82, 45, 85, 45, 79, 75, 63] 3 [10, 0, 0, 9]] }

/-- As `exAnswer`, but the receive for TTL 2 fails with an error that is no timeout. -/
def exAnswerFatal (i : Int) : Except Error (Bytes × Addr) :=
  if i = 2 then .error ⟨"connection refused", false⟩ else exAnswer i

/-- The example run with a fatal receive error at TTL 2. -/
def exWorldFatal : World := exWorldOf exIPs exAnswerFatal

/-- As `exAnswer`, but the messages for TTL 3 and 4 differ in code and body. -/
def exAnswerOther (i : Int) : Except Error (Bytes × Addr) :=
  if i = 3 then .ok ([3, 13, 0, 0, 1, 2], exAddr "10.0.0.3")
  else if i = 4 then .ok ([0, 0, 0, 0, 17, 112, 0, 4, 82, 45], exAddr "10.0.0.9")
  else exAnswer i

/-- The example run with other message contents at TTL 3 and 4. -/
def exWorldOther : World := exWorldOf exIPs exAnswerOther

/-- Scenario B: hops 1 and 2 answer Time Exceeded, hop 3 is the destination. -/
def exAnswerB (i : Int) : Except Error (Bytes × Addr) :=
  if i = 1 then .ok ([11, 0, 0, 0], exAddr "10.0.0.1")
  else if i = 2 then .ok ([11, 0, 0, 0], exAddr "10.0.0.2")
  else .ok ([0, 0, 0, 0, 17, 112, 0, 3, 82, 45, 85, 45, 79, 75, 63], exAddr "10.0.0.9")

/-- The run of scenario B. -/
def exWorldB : World := exWorldOf exIPs exAnswerB

/-- The peers of scenario B. -/
def exPeerB (i : Int) : Addr :=
  if i = 1 then exAddr "10.0.0.1" else if i = 2 then exAddr "10.0.0.2" else exAddr "10.0.0.9"

/-- The parsed messages of scenario B. -/
def exMsgB (i : Int) : Message :=
  if i = 1 ∨ i = 2 then ⟨11, 0, 0, .RawBody []⟩
  else ⟨0, 0, 0, .Echo ⟨4464, 3, [82, 45, 85, 45, 79, 75, 63]⟩⟩

/-- A world in which no hop ever answers. -/
def exWorldSilent : World := exWorldOf exIPs (fun _ => .error ⟨"i/o timeout", true⟩)

/-- A world in which the resolver returns only an IPv6 address. -/
def exWorldV6 : World := exWorldOf [[32, 1, 13, 184, 0, 0, 0, 0, 0, 0, 0, 0, 0, 0, 0, 1]] exAnswer

/-- Candidates: two IPv6 addresses, then 10.0.0.9, then 10.0.0.7. -/
def exIPsLate : List IP :=
  [[32, 1, 13, 184, 0, 0, 0, 0, 0, 0, 0, 0, 0, 0, 0, 1],
   [32, 1, 13, 184, 0, 0, 0, 0, 0, 0, 0, 0, 0, 0, 0, 2],
   [10, 0, 0, 9], [10, 0, 0, 7]]

/-- The example run when the first IPv4 candidate is the third of four candidates. -/
def exWorldLate : World := exWorldOf exIPsLate exAnswer

/-- A `TraceRoute` literal that leaves `MaxTTL` at its zero value. -/
def exT0 : TraceRoute := { LocalAddr := "0.0.0.0", RemoteAddr := "example.com", MaxTTL := 0, Timeout := 0 }

/-- A config with `MaxTTL = 5`. -/
def exT5 : TraceRoute := { New "example.com" with MaxTTL := 5 }

/-! ## The loop body -/

/-- The packets of a concatenated log. -/
theorem sends_append (l₁ l₂ : List Event) : sends (l₁ ++ l₂) = sends l₁ ++ sends l₂ := by
  induction l₁ with
  | nil => rfl
  | cons e l ih => cases e <;> simp [sends, ih]

/-- One more value of the loop variable. -/
theorem upTo_succ (n : Nat) : upTo (n + 1) = upTo n ++ [(n : Int) + 1] := by
  simp [upTo, List.range_succ]

/-- There are `n` values from 1 to `n`. -/
theorem upTo_length (n : Nat) : (upTo n).length = n := by
  unfold upTo
  rw [List.length_map, List.length_range]

/-- The element of `upTo n` at index `k` is `k + 1`. -/
theorem upTo_getElem (n k : Nat) (hk : k < (upTo n).length) : (upTo n)[k] = (k : Int) + 1 := by
  simp [upTo]

/-- The members of `upTo n` lie between 1 and `n`. -/
theorem mem_upTo {n : Nat} {x : Int} (h : x ∈ upTo n) : 1 ≤ x ∧ x ≤ n := by
  simp only [upTo, List.mem_map, List.mem_range] at h
  obtain ⟨k, hk, rfl⟩ := h
  omega

/-- Results whose IDs are `upTo` their number have `ID = k + 1` at index `k`. -/
theorem ids_getElem {l : List Result} (h : l.map (fun r => r.ID) = upTo l.length)
    (k : Nat) (hk : k < l.length) : (l[k]).ID = (k : Int) + 1 := by
  have h1 : (l.map (fun r => r.ID))[k]? = (upTo l.length)[k]? := by rw [h]
  have hk' : k < (upTo l.length).length := by rw [upTo_length]; exact hk
  rw [List.getElem?_map, List.getElem?_eq_getElem hk, List.getElem?_eq_getElem hk',
    upTo_getElem] at h1
  simpa using h1

/-- What an iteration that falls through to `i++` has done: one packet was sent and
one result was appended. -/
theorem body_next {w : World} {i : Int} {s s' : State} (h : body w i s = .next s') :
    ∃ wb r, w.Marshal (wm { s.echo with Seq := i }) = .ok wb ∧
      s' = { dst := s.dst, echo := { s.echo with Seq := i }, ttl := i,
             result := s.result ++ [r], log := s.log ++ [Event.WriteTo wb i s.dst] } ∧
      r.ID = i ∧
      ((r.IP = "*" ∧ r.RTT = 0) ∨
        ∃ b peer, (w.probe i).ReadFrom = .ok (b, peer) ∧ r.IP = peer.String) := by
  unfold body at h
  simp only [State.ret, State.append] at h
  split at h
  · simp at h
  · rename_i wb hwb
    refine ⟨wb, ?_⟩
    split at h
    · simp at h
    · split at h
      · simp at h
      · split at h
        · simp at h
        · split at h
          · split at h
            · simp only [Ctl.next.injEq] at h
              exact ⟨_, hwb, h.symm, rfl, Or.inl ⟨rfl, rfl⟩⟩
            · simp at h
          · rename_i b peer hrd
            split at h
            · simp at h
            · split at h
              · simp only [Ctl.next.injEq] at h
                exact ⟨_, hwb, h.symm, rfl, Or.inr ⟨b, peer, hrd, rfl⟩⟩
              · split at h
                · simp at h
                · simp only [Ctl.next.injEq] at h
                  exact ⟨_, hwb, h.symm, rfl, Or.inl ⟨rfl, rfl⟩⟩

/-- What an iteration that returns has done: the results are the old ones, or the
old ones and the hop of an Echo Reply; at most one packet was sent. -/
theorem body_ret {w : World} {i : Int} {s : State} {o : Outcome} (h : body w i s = .ret o) :
    (o.result = s.result ∨
      ∃ b peer, (w.probe i).ReadFrom = .ok (b, peer) ∧ o.err = none ∧
        o.result = s.result ++
          [{ ID := i, IP := peer.String, RTT := Since (w.probe i).begin (w.probe i).now }]) ∧
    (o.log = s.log ∨
      ∃ wb, w.Marshal (wm { s.echo with Seq := i }) = .ok wb ∧
        o.log = s.log ++ [Event.WriteTo wb i s.dst]) := by
  unfold body at h
  simp only [State.ret, State.append] at h
  split at h
  · simp only [Ctl.ret.injEq] at h
    subst h
    exact ⟨Or.inl rfl, Or.inl rfl⟩
  · rename_i wb hwb
    split at h
    · simp only [Ctl.ret.injEq] at h
      subst h
      exact ⟨Or.inl rfl, Or.inl rfl⟩
    · split at h
      · simp only [Ctl.ret.injEq] at h
        subst h
        exact ⟨Or.inl rfl, Or.inr ⟨wb, hwb, rfl⟩⟩
      · split at h
        · simp only [Ctl.ret.injEq] at h
          subst h
          exact ⟨Or.inl rfl, Or.inr ⟨wb, hwb, rfl⟩⟩
        · split at h
          · split at h
            · simp at h
            · simp only [Ctl.ret.injEq] at h
              subst h
              exact ⟨Or.inl rfl, Or.inr ⟨wb, hwb, rfl⟩⟩
          · rename_i b peer hrd
            split at h
            · simp only [Ctl.ret.injEq] at h
              subst h
              exact ⟨Or.inl rfl, Or.inr ⟨wb, hwb, rfl⟩⟩
            · split at h
              · simp at h
              · split at h
                · simp only [Ctl.ret.injEq] at h
                  subst h
                  exact ⟨Or.inr ⟨b, peer, hrd, rfl, rfl⟩, Or.inr ⟨wb, hwb, rfl⟩⟩
                · simp at h

/-- An iteration that returns after a successful `SetTTL` has called `WriteTo`. -/
theorem body_ret_sent {w : World} {i : Int} {s : State} {o : Outcome} {wb : Bytes}
    (hb : body w i s = .ret o) (hwb : w.Marshal (wm { s.echo with Seq := i }) = .ok wb)
    (httl : (w.probe i).SetTTL = none) : o.log = s.log ++ [Event.WriteTo wb i s.dst] := by
  rcases (body_ret hb).2 with hlog | ⟨wb', hwb', hlog⟩
  · exfalso
    unfold body at hb
    simp only [hwb, httl, State.ret, State.append] at hb
    split at hb
    · simp only [Ctl.ret.injEq] at hb
      rw [← hb] at hlog
      simp at hlog
    · split at hb
      · simp only [Ctl.ret.injEq] at hb
        rw [← hb] at hlog
        simp at hlog
      · split at hb
        · split at hb
          · simp at hb
          · simp only [Ctl.ret.injEq] at hb
            rw [← hb] at hlog
            simp at hlog
        · split at hb
          · simp only [Ctl.ret.injEq] at hb
            rw [← hb] at hlog
            simp at hlog
          · split at hb
            · simp at hb
            · split at hb
              · simp only [Ctl.ret.injEq] at hb
                rw [← hb] at hlog
                simp at hlog
              · simp at hb
  · rw [hwb] at hwb'
    simp only [Except.ok.injEq] at hwb'
    rw [hwb', hlog]

/-! ## The loop and the setup -/

/-- The iteration bound never cuts the loop short: every bound of at least the number
of values from `i` below `MaxTTL` gives the same outcome. -/
theorem loop_fuel (w : World) (t : TraceRoute) :
    ∀ (n : Nat) (i : Int) (s : State), (t.MaxTTL - i).toNat ≤ n →
      loop w t n i s = loop w t (t.MaxTTL - i).toNat i s := by
  intro n
  induction n with
  | zero =>
    intro i s h
    have h0 : (t.MaxTTL - i).toNat = 0 := by omega
    rw [h0]
  | succ n ih =>
    intro i s h
    by_cases hlt : i < t.MaxTTL
    · obtain ⟨m, hm⟩ : ∃ m, (t.MaxTTL - i).toNat = m + 1 := ⟨(t.MaxTTL - i).toNat - 1, by omega⟩
      have hm' : (t.MaxTTL - (i + 1)).toNat = m := by omega
      rw [hm]
      simp only [loop, hlt, if_true]
      cases hb : body w i s with
      | next s' =>
        simp only []
        rw [ih (i + 1) s' (by omega), hm']
      | ret o => rfl
    · have h0 : (t.MaxTTL - i).toNat = 0 := by omega
      rw [h0]
      simp [loop, hlt]

/-- Induction over the loop: a property of the state at the loop head that every
completed iteration preserves gives a property of the outcome. -/
theorem loop_induct {w : World} {t : TraceRoute} (P : Int → State → Prop) (Q : Outcome → Prop)
    (hnext : ∀ i s s', P i s → i < t.MaxTTL → body w i s = .next s' → P (i + 1) s')
    (hret : ∀ i s o, P i s → i < t.MaxTTL → body w i s = .ret o → Q o)
    (hexit : ∀ i s, P i s → t.MaxTTL ≤ i → Q ⟨s.result, none, s.log⟩) :
    ∀ (n : Nat) (i : Int) (s : State), (t.MaxTTL - i).toNat ≤ n → P i s →
      Q (loop w t n i s) := by
  intro n
  induction n with
  | zero =>
    intro i s h hP
    exact hexit i s hP (by omega)
  | succ n ih =>
    intro i s h hP
    by_cases hlt : i < t.MaxTTL
    · simp only [loop, hlt, if_true]
      cases hb : body w i s with
      | next s' => exact ih (i + 1) s' (by omega) (hnext i s s' hP hlt hb)
      | ret o => exact hret i s o hP hlt hb
    · simp only [loop, hlt, if_false]
      exact hexit i s hP (by omega)

/-- The loop only appends to the results and to the log. -/
theorem loop_extends (w : World) (t : TraceRoute) :
    ∀ (n : Nat) (i : Int) (s : State), ∃ rest lrest,
      (loop w t n i s).result = s.result ++ rest ∧ (loop w t n i s).log = s.log ++ lrest := by
  intro n
  induction n with
  | zero =>
    intro i s
    exact ⟨[], [], by simp [loop], by simp [loop]⟩
  | succ n ih =>
    intro i s
    by_cases hlt : i < t.MaxTTL
    · simp only [loop, hlt, if_true]
      cases hb : body w i s with
      | next s' =>
        obtain ⟨wb, r, -, hs', -, -⟩ := body_next hb
        obtain ⟨rest, lrest, h1, h2⟩ := ih (i + 1) s'
        have hr : s'.result = s.result ++ [r] := by rw [hs']
        have hl : s'.log = s.log ++ [Event.WriteTo wb i s.dst] := by rw [hs']
        exact ⟨r :: rest, Event.WriteTo wb i s.dst :: lrest, by simp [h1, hr], by simp [h2, hl]⟩
      | ret o =>
        obtain ⟨hres, hlog⟩ := body_ret hb
        have h1 : ∃ rest, o.result = s.result ++ rest := by
          rcases hres with h | ⟨b, peer, -, -, h⟩
          · exact ⟨[], by simp [h]⟩
          · exact ⟨_, h⟩
        have h2 : ∃ lrest, o.log = s.log ++ lrest := by
          rcases hlog with h | ⟨wb, -, h⟩
          · exact ⟨[], by simp [h]⟩
          · exact ⟨_, h⟩
        obtain ⟨rest, h1⟩ := h1
        obtain ⟨lrest, h2⟩ := h2
        exact ⟨rest, lrest, h1, h2⟩
    · exact ⟨[], [], by simp [loop, hlt], by simp [loop, hlt]⟩

/-- The state in which the loop is entered. -/
theorem setup_ok {w : World} {t : TraceRoute} {s : State} (h : setup w t = .ok s) :
    ∃ ips, w.LookupIP t.RemoteAddr = .ok ips ∧ selectDst ips ≠ [] ∧
      s = { dst := selectDst ips,
            echo := { ID := w.Getpid % 65536, Seq := 0, Data := [82, 45, 85, 45, 79, 75, 63] },
            ttl := 0, result := [],
            log := [Event.ListenPacket "ip4:icmp" t.LocalAddr] } := by
  unfold setup at h
  split at h
  · simp at h
  · rename_i ips hips
    refine ⟨ips, hips, ?_⟩
    simp only [] at h
    split at h
    · simp at h
    · rename_i hne
      split at h
      · simp at h
      · split at h
        · simp at h
        · simp only [Except.ok.injEq] at h
          exact ⟨hne, h.symm⟩

/-- An early return before the loop carries no result, an error, and no packet. -/
theorem setup_error {w : World} {t : TraceRoute} {o : Outcome} (h : setup w t = .error o) :
    o.result = [] ∧ o.err ≠ none ∧ sends o.log = [] := by
  unfold setup at h
  split at h
  · simp only [Except.error.injEq] at h
    subst h
    simp [sends]
  · simp only [] at h
    split at h
    · simp only [Except.error.injEq] at h
      subst h
      simp [sends]
    · split at h
      · simp only [Except.error.injEq] at h
        subst h
        simp [sends]
      · split at h
        · simp only [Except.error.injEq] at h
          subst h
          simp [sends, Outcome.close]
        · simp at h

/-- Without an IPv4 candidate `dst.IP` stays nil. -/
theorem selectDst_none {ips : List IP} (h : ∀ ip ∈ ips, To4 ip = []) : selectDst ips = [] := by
  induction ips with
  | nil => rfl
  | cons ip ips ih =>
    have h1 : To4 ip = [] := h ip (List.mem_cons_self _ _)
    simp only [selectDst, h1, ne_eq, not_true_eq_false, if_false]
    exact ih (fun x hx => h x (List.mem_cons_of_mem _ hx))

/-- The resolver loop selects the first IPv4 candidate. -/
theorem selectDst_first {pre post : List IP} {d : IP} (h : ∀ ip ∈ pre, To4 ip = [])
    (hd : To4 d ≠ []) : selectDst (pre ++ d :: post) = d := by
  induction pre with
  | nil => simp [selectDst, hd]
  | cons ip pre ih =>
    have h1 : To4 ip = [] := h ip (List.mem_cons_self _ _)
    simp only [List.cons_append, selectDst, h1, ne_eq, not_true_eq_false, if_false]
    exact ih (fun x hx => h x (List.mem_cons_of_mem _ hx))

/-- The outcome of `Do`: an early return of the setup, or the closed outcome of the loop. -/
theorem Do_cases (w : World) (t : TraceRoute) :
    (∃ o, setup w t = .error o ∧ Do w t = o) ∨
    (∃ s, setup w t = .ok s ∧ Do w t = (loop w t (t.MaxTTL - 1).toNat 1 s).close) := by
  unfold Do
  cases h : setup w t with
  | error o => exact Or.inl ⟨o, rfl, rfl⟩
  | ok s => exact Or.inr ⟨s, rfl, rfl⟩

/-- From any loop head the rest of `Do` is the rest of the loop and the deferred close. -/
theorem Do_of_loopHead {w : World} {t : TraceRoute} {i : Int} {s : State}
    (h : LoopHead w t i s) : Do w t = (loop w t (t.MaxTTL - i).toNat i s).close := by
  induction h with
  | init h0 => simp [Do, h0]
  | step hh hlt hb ih =>
    rename_i i s s'
    obtain ⟨m, hm⟩ : ∃ m, (t.MaxTTL - i).toNat = m + 1 := ⟨(t.MaxTTL - i).toNat - 1, by omega⟩
    have hm' : (t.MaxTTL - (i + 1)).toNat = m := by omega
    rw [ih, hm, hm']
    simp [loop, hlt, hb]

/-- The outcome of `Do` when the iteration for `i` returns. -/
theorem Do_of_ret {w : World} {t : TraceRoute} {i : Int} {s : State} {o : Outcome}
    (hh : LoopHead w t i s) (hlt : i < t.MaxTTL) (hb : body w i s = .ret o) :
    Do w t = o.close := by
  obtain ⟨m, hm⟩ : ∃ m, (t.MaxTTL - i).toNat = m + 1 := ⟨(t.MaxTTL - i).toNat - 1, by omega⟩
  rw [Do_of_loopHead hh, hm]
  simp [loop, hlt, hb]

/-- Closing the socket sends nothing. -/
theorem sends_close (o : Outcome) : sends o.close.log = sends o.log := by
  simp [Outcome.close, sends_append, sends]

/-- Closing the socket sends nothing (membership form). -/
theorem mem_sends_close {o : Outcome} {p : Bytes × Int × IP} :
    p ∈ sends o.close.log ↔ p ∈ sends o.log := by
  rw [sends_close]

/-! ## Invariant of the loop head -/

/-- The invariant holds when the loop is entered. -/
theorem inv_init {w : World} {t : TraceRoute} {s : State} (h : setup w t = .ok s) :
    Inv w t s.dst 1 s := by
  obtain ⟨ips, -, -, rfl⟩ := setup_ok h
  constructor <;> simp [sends, upTo]

/-- At a loop head for `i` the message marshalled next is `echoRequest w i`. -/
theorem inv_wm {w : World} {t : TraceRoute} {d : IP} {i : Int} {s : State}
    (h : Inv w t d i s) : wm { s.echo with Seq := i } = echoRequest w i := by
  simp [echoRequest, h.echoID, h.echoData]

/-- A completed iteration preserves the invariant. -/
theorem inv_next {w : World} {t : TraceRoute} {d : IP} {i : Int} {s s' : State}
    (h : Inv w t d i s) (hlt : i < t.MaxTTL) (hb : body w i s = .next s') :
    Inv w t d (i + 1) s' := by
  obtain ⟨wb, r, hwb, rfl, hr, -⟩ := body_next hb
  rw [inv_wm h] at hwb
  have hlen := h.len
  have hi : ((s.result.length : Nat) : Int) + 1 = i := by omega
  constructor
  · have := h.pos; omega
  · omega
  · exact h.dst
  · exact h.echoID
  · exact h.echoData
  · simp only [List.length_append, List.length_singleton]; omega
  · simp only [List.map_append, List.length_append, List.length_singleton, upTo_succ, h.ids,
      List.map_cons, List.map_nil, hr, hi]
  · simp [sends_append, sends, h.nsends]
  · simp only [sends_append, sends, List.map_append, List.length_append, List.length_singleton,
      upTo_succ, h.ttls, List.map_cons, List.map_nil, hi]
  · intro p hp
    simp only [sends_append, sends, List.mem_append, List.mem_singleton] at hp
    rcases hp with hp | rfl
    · exact h.pkts p hp
    · exact ⟨h.dst, hwb⟩

/-- The invariant holds at every loop head the run reaches. -/
theorem loopHead_inv {w : World} {t : TraceRoute} {i : Int} {s : State}
    (h : LoopHead w t i s) : ∃ s₀, setup w t = .ok s₀ ∧ Inv w t s₀.dst i s := by
  induction h with
  | init h0 => exact ⟨_, h0, inv_init h0⟩
  | step _ hlt hb ih =>
    obtain ⟨s₀, h0, hinv⟩ := ih
    exact ⟨s₀, h0, inv_next hinv hlt hb⟩

/-- At the loop head for `i` only packets with TTL below `i` have been sent. -/
theorem inv_sends_lt {w : World} {t : TraceRoute} {d : IP} {i : Int} {s : State}
    (hinv : Inv w t d i s) : ∀ p ∈ sends s.log, p.2.1 < i := by
  intro p hp
  have h1 : p.2.1 ∈ (sends s.log).map (fun p => p.2.1) := List.mem_map_of_mem _ hp
  rw [hinv.ttls] at h1
  have := mem_upTo h1
  have := hinv.len
  omega

/-- The outcome of a returning iteration satisfies `OutInv`. -/
theorem outInv_of_ret {w : World} {t : TraceRoute} {d : IP} {i : Int} {s : State} {o : Outcome}
    (h : Inv w t d i s) (hlt : i < t.MaxTTL) (hb : body w i s = .ret o) : OutInv w t d o := by
  obtain ⟨hres, hlog⟩ := body_ret hb
  have hlen := h.len
  have hpos := h.pos
  have hi : ((s.result.length : Nat) : Int) + 1 = i := by omega
  have hres' : (o.result.length : Int) ≤ max 0 (t.MaxTTL - 1) ∧
      o.result.map (fun r => r.ID) = upTo o.result.length := by
    rcases hres with hres | ⟨b, peer, -, -, hres⟩
    · rw [hres]
      exact ⟨by omega, h.ids⟩
    · rw [hres]
      refine ⟨?_, ?_⟩
      · simp only [List.length_append, List.length_singleton]; omega
      · simp only [List.map_append, List.length_append, List.length_singleton, upTo_succ, h.ids,
          List.map_cons, List.map_nil, hi]
  have hlog' : (sends o.log).map (fun p => p.2.1) = upTo (sends o.log).length ∧
      ∀ p ∈ sends o.log, p.2.2 = d ∧ w.Marshal (echoRequest w p.2.1) = .ok p.1 := by
    rcases hlog with hlog | ⟨wb, hwb, hlog⟩
    · rw [hlog, h.nsends]
      exact ⟨h.ttls, h.pkts⟩
    · rw [inv_wm h] at hwb
      rw [hlog]
      refine ⟨?_, ?_⟩
      · simp only [sends_append, sends, List.map_append, List.length_append,
          List.length_singleton, upTo_succ, h.ttls, h.nsends, List.map_cons, List.map_nil, hi]
      · intro p hp
        simp only [sends_append, sends, List.mem_append, List.mem_singleton] at hp
        rcases hp with hp | rfl
        · exact h.pkts p hp
        · exact ⟨h.dst, hwb⟩
  exact ⟨hres'.1, hres'.2, hlog'.1, hlog'.2⟩

/-- The outcome of leaving the loop at its head satisfies `OutInv`. -/
theorem outInv_of_exit {w : World} {t : TraceRoute} {d : IP} {i : Int} {s : State}
    (h : Inv w t d i s) : OutInv w t d ⟨s.result, none, s.log⟩ := by
  have hlen := h.len
  have hle := h.le
  refine ⟨?_, h.ids, ?_, h.pkts⟩
  · show (s.result.length : Int) ≤ max 0 (t.MaxTTL - 1)
    omega
  · show (sends s.log).map (fun p => p.2.1) = upTo (sends s.log).length
    rw [h.nsends]
    exact h.ttls

/-- The deferred close preserves `OutInv`. -/
theorem outInv_close {w : World} {t : TraceRoute} {d : IP} {o : Outcome}
    (h : OutInv w t d o) : OutInv w t d o.close := by
  refine ⟨h.len, h.ids, ?_, ?_⟩
  · rw [sends_close]; exact h.ttls
  · rw [sends_close]; exact h.pkts

/-- Every run of `Do` that enters the loop ends in an outcome satisfying `OutInv`. -/
theorem outInv_Do {w : World} {t : TraceRoute} {s : State} (h : setup w t = .ok s) :
    OutInv w t s.dst (Do w t) := by
  have hD : Do w t = (loop w t (t.MaxTTL - 1).toNat 1 s).close := by simp [Do, h]
  rw [hD]
  apply outInv_close
  exact loop_induct (Inv w t s.dst) (OutInv w t s.dst)
    (fun i s₁ s₂ hP hlt hb => inv_next hP hlt hb)
    (fun i s₁ o hP hlt hb => outInv_of_ret hP hlt hb)
    (fun i s₁ hP _ => outInv_of_exit hP)
    _ 1 s (le_refl _) (inv_init h)

/-! ## One iteration under a given answer of the environment -/

/-- The iteration for a probe answered by an Echo Reply. -/
theorem body_echoReply {w : World} {t : TraceRoute} {d : IP} {i : Int} {s : State}
    {peer : Addr} {rm : Message} (hinv : Inv w t d i s) (hans : Answered w i peer rm)
    (hty : rm.Type_ = ICMPTypeEchoReply) :
    ∃ wb, w.Marshal (echoRequest w i) = .ok wb ∧
      body w i s = .ret ⟨s.result ++
        [{ ID := i, IP := peer.String, RTT := Since (w.probe i).begin (w.probe i).now }],
        none, s.log ++ [Event.WriteTo wb i s.dst]⟩ := by
  obtain ⟨⟨⟨wb, hwb⟩, httl, hwr, hdl⟩, b, hrd, hpm⟩ := hans
  refine ⟨wb, hwb, ?_⟩
  unfold body
  simp only [inv_wm hinv, hwb, httl, hwr, hdl, hrd, hpm, hty, State.ret, State.append]
  simp [ICMPTypeEchoReply, ICMPTypeTimeExceeded]

/-- The iteration for a probe answered by Time Exceeded. -/
theorem body_timeExceeded {w : World} {t : TraceRoute} {d : IP} {i : Int} {s : State}
    {peer : Addr} {rm : Message} (hinv : Inv w t d i s) (hans : Answered w i peer rm)
    (hty : rm.Type_ = ICMPTypeTimeExceeded) :
    ∃ wb, w.Marshal (echoRequest w i) = .ok wb ∧
      body w i s = Ctl.next
        { dst := s.dst, echo := { s.echo with Seq := i }, ttl := i,
          result := s.result ++
            [{ ID := i, IP := peer.String, RTT := Since (w.probe i).begin (w.probe i).now }],
          log := s.log ++ [Event.WriteTo wb i s.dst] } := by
  obtain ⟨⟨⟨wb, hwb⟩, httl, hwr, hdl⟩, b, hrd, hpm⟩ := hans
  refine ⟨wb, hwb, ?_⟩
  unfold body
  simp only [inv_wm hinv, hwb, httl, hwr, hdl, hrd, hpm, hty, State.ret, State.append]
  simp

/-- The iteration for a probe without an informative answer. -/
theorem body_star {w : World} {t : TraceRoute} {d : IP} {i : Int} {s : State}
    (hinv : Inv w t d i s)
    (h : TimedOut w i ∨ ∃ peer rm, Answered w i peer rm ∧
      rm.Type_ ≠ ICMPTypeTimeExceeded ∧ rm.Type_ ≠ ICMPTypeEchoReply) :
    ∃ wb, w.Marshal (echoRequest w i) = .ok wb ∧
      body w i s = Ctl.next
        { dst := s.dst, echo := { s.echo with Seq := i }, ttl := i,
          result := s.result ++ [{ ID := i, IP := "*", RTT := 0 }],
          log := s.log ++ [Event.WriteTo wb i s.dst] } := by
  rcases h with ⟨⟨⟨wb, hwb⟩, httl, hwr, hdl⟩, err, hrd, hto⟩ |
    ⟨peer, rm, ⟨⟨⟨wb, hwb⟩, httl, hwr, hdl⟩, b, hrd, hpm⟩, hne1, hne2⟩
  · refine ⟨wb, hwb, ?_⟩
    unfold body
    simp only [inv_wm hinv, hwb, httl, hwr, hdl, hrd, hto, State.ret, State.append]
    simp
  · refine ⟨wb, hwb, ?_⟩
    unfold body
    simp only [inv_wm hinv, hwb, httl, hwr, hdl, hrd, hpm, hne1, hne2, State.ret, State.append]
    simp

/-- The iteration for a probe that hits a fatal failure. -/
theorem body_fatal {w : World} {t : TraceRoute} {d : IP} {i : Int} {s : State} {err : Error}
    (hinv : Inv w t d i s) (h : Fatal w i err) :
    ∃ log, body w i s = .ret ⟨s.result, some err, log⟩ ∧
      (log = s.log ∨ ∃ wb, log = s.log ++ [Event.WriteTo wb i s.dst]) := by
  unfold body
  simp only [inv_wm hinv, State.ret, State.append]
  rcases h with hm | ⟨⟨wb, hwb⟩, h⟩
  · rw [hm]
    exact ⟨_, rfl, Or.inl rfl⟩
  · rw [hwb]
    rcases h with h | ⟨httl, h⟩
    · rw [h]
      exact ⟨_, rfl, Or.inl rfl⟩
    · rw [httl]
      rcases h with h | ⟨hwr, h⟩
      · rw [h]
        exact ⟨_, rfl, Or.inr ⟨wb, rfl⟩⟩
      · rw [hwr]
        rcases h with h | ⟨hdl, h⟩
        · rw [h]
          exact ⟨_, rfl, Or.inr ⟨wb, rfl⟩⟩
        · rw [hdl]
          rcases h with ⟨hrd, hto⟩ | ⟨b, peer, hrd, hpm⟩
          · rw [hrd]
            simp only [hto]
            exact ⟨_, rfl, Or.inr ⟨wb, rfl⟩⟩
          · rw [hrd]
            simp only [hpm]
            exact ⟨_, rfl, Or.inr ⟨wb, rfl⟩⟩

/-- An iteration returns only on a fatal failure or on an Echo Reply. -/
theorem body_ret_cause {w : World} {t : TraceRoute} {d : IP} {i : Int} {s : State}
    {o : Outcome} (hinv : Inv w t d i s) (hb : body w i s = .ret o) :
    (∃ err, Fatal w i err) ∨
    (∃ peer rm, Answered w i peer rm ∧ rm.Type_ = ICMPTypeEchoReply) := by
  unfold body at hb
  simp only [inv_wm hinv, State.ret, State.append] at hb
  cases hM : w.Marshal (echoRequest w i) with
  | error err => exact Or.inl ⟨err, Or.inl hM⟩
  | ok wb =>
    cases hT : (w.probe i).SetTTL with
    | some err => exact Or.inl ⟨err, Or.inr ⟨⟨wb, hM⟩, Or.inl hT⟩⟩
    | none =>
      cases hW : (w.probe i).WriteTo with
      | some err => exact Or.inl ⟨err, Or.inr ⟨⟨wb, hM⟩, Or.inr ⟨hT, Or.inl hW⟩⟩⟩
      | none =>
        cases hD : (w.probe i).SetReadDeadline with
        | some err =>
          exact Or.inl ⟨err, Or.inr ⟨⟨wb, hM⟩, Or.inr ⟨hT, Or.inr ⟨hW, Or.inl hD⟩⟩⟩⟩
        | none =>
          cases hR : (w.probe i).ReadFrom with
          | error err =>
            cases hto : err.Timeout with
            | true => simp [hM, hT, hW, hD, hR, hto] at hb
            | false =>
              exact Or.inl ⟨err, Or.inr ⟨⟨wb, hM⟩, Or.inr ⟨hT, Or.inr ⟨hW, Or.inr ⟨hD,
                Or.inl ⟨hR, hto⟩⟩⟩⟩⟩⟩
          | ok bp =>
            obtain ⟨b, peer⟩ := bp
            cases hP : w.ParseMessage 1 b with
            | error err =>
              exact Or.inl ⟨err, Or.inr ⟨⟨wb, hM⟩, Or.inr ⟨hT, Or.inr ⟨hW, Or.inr ⟨hD,
                Or.inr ⟨b, peer, hR, hP⟩⟩⟩⟩⟩⟩
            | ok rm =>
              by_cases h11 : rm.Type_ = ICMPTypeTimeExceeded
              · simp [hM, hT, hW, hD, hR, hP, h11] at hb
              · by_cases h0 : rm.Type_ = ICMPTypeEchoReply
                · exact Or.inr ⟨peer, rm, ⟨⟨⟨wb, hM⟩, hT, hW, hD⟩, b, hR, hP⟩, h0⟩
                · simp [hM, hT, hW, hD, hR, hP, h11, h0] at hb

/-- One more hop. -/
theorem hops_succ (w : World) (peer : Int → Addr) (n : Nat) :
    hops w peer (n + 1) = hops w peer n ++ [hop w ((n : Int) + 1) (peer ((n : Int) + 1))] := by
  unfold hops
  rw [List.range_succ, List.map_append]
  rfl

/-- While every probe so far was answered by Time Exceeded, the loop head is reached
with one hop per probe. -/
theorem loopHead_timeExceeded {w : World} {t : TraceRoute} {s₀ : State}
    (hsetup : setup w t = .ok s₀) (peer : Int → Addr) (rm : Int → Message) :
    ∀ (n : Nat), (n : Int) < t.MaxTTL - 1 →
      (∀ j : Int, 1 ≤ j → j ≤ n → Answered w j (peer j) (rm j) ∧
        (rm j).Type_ = ICMPTypeTimeExceeded) →
      ∃ s, LoopHead w t ((n : Int) + 1) s ∧ s.result = hops w peer n := by
  intro n
  induction n with
  | zero =>
    intro _ _
    refine ⟨s₀, by simpa using LoopHead.init hsetup, ?_⟩
    obtain ⟨ips, -, -, rfl⟩ := setup_ok hsetup
    rfl
  | succ n ih =>
    intro hn hans
    obtain ⟨s, hhead, hres⟩ := ih (by push_cast at hn; omega)
      (fun j h1 h2 => hans j h1 (by push_cast; omega))
    obtain ⟨s', -, hinv⟩ := loopHead_inv hhead
    obtain ⟨ha, hty⟩ := hans ((n : Int) + 1) (by omega) (by push_cast; omega)
    obtain ⟨wb, -, hb⟩ := body_timeExceeded hinv ha hty
    have hlt : (n : Int) + 1 < t.MaxTTL := by push_cast at hn; omega
    refine ⟨_, by simpa using LoopHead.step hhead hlt hb, ?_⟩
    rw [hops_succ, ← hres]
    rfl

/-- Worlds that differ only in message contents give the same iteration. -/
theorem body_congr {w₁ w₂ : World} {t : TraceRoute} (h : SameButContent w₁ w₂ t)
    (i : Int) (s : State) : body w₁ i s = body w₂ i s := by
  have ha := h.answer i
  unfold SameAnswer at ha
  unfold body
  simp only [h.marshal, h.setTTL, h.begin, h.writeTo, h.deadline, h.now]
  cases hM : w₂.Marshal (wm { s.echo with Seq := i }) with
  | error err => rfl
  | ok wb =>
    cases hT : (w₂.probe i).SetTTL with
    | some err => rfl
    | none =>
      cases hW : (w₂.probe i).WriteTo with
      | some err => rfl
      | none =>
        cases hD : (w₂.probe i).SetReadDeadline with
        | some err => rfl
        | none =>
          cases hR₁ : (w₁.probe i).ReadFrom with
          | error e₁ =>
            cases hR₂ : (w₂.probe i).ReadFrom with
            | error e₂ =>
              rw [hR₁, hR₂] at ha
              rcases ha with ⟨h1, h2⟩ | rfl
              · simp [h1, h2]
              · rfl
            | ok bp₂ =>
              rw [hR₁, hR₂] at ha
              exact absurd ha (by simp)
          | ok bp₁ =>
            obtain ⟨b₁, p₁⟩ := bp₁
            cases hR₂ : (w₂.probe i).ReadFrom with
            | error e₂ =>
              rw [hR₁, hR₂] at ha
              exact absurd ha (by simp)
            | ok bp₂ =>
              obtain ⟨b₂, p₂⟩ := bp₂
              rw [hR₁, hR₂] at ha
              obtain ⟨rfl, ha⟩ := ha
              dsimp only
              cases hP₁ : w₁.ParseMessage 1 b₁ with
              | error e₁ =>
                cases hP₂ : w₂.ParseMessage 1 b₂ with
                | error e₂ =>
                  rw [hP₁, hP₂] at ha
                  dsimp only at ha
                  subst ha
                  rfl
                | ok m₂ =>
                  rw [hP₁, hP₂] at ha
                  exact absurd ha (by simp)
              | ok m₁ =>
                cases hP₂ : w₂.ParseMessage 1 b₂ with
                | error e₂ =>
                  rw [hP₁, hP₂] at ha
                  exact absurd ha (by simp)
                | ok m₂ =>
                  rw [hP₁, hP₂] at ha
                  dsimp only at ha
                  dsimp only
                  rw [ha]

/-- Worlds that differ only in message contents give the same loop outcome. -/
theorem loop_congr {w₁ w₂ : World} {t : TraceRoute} (h : SameButContent w₁ w₂ t) :
    ∀ (n : Nat) (i : Int) (s : State), loop w₁ t n i s = loop w₂ t n i s := by
  intro n
  induction n with
  | zero => intro i s; rfl
  | succ n ih =>
    intro i s
    simp only [loop, body_congr h]
    split
    · split
      · exact ih _ _
      · rfl
    · rfl

/-- Worlds that differ only in message contents give the same setup. -/
theorem setup_congr {w₁ w₂ : World} {t : TraceRoute} (h : SameButContent w₁ w₂ t) :
    setup w₁ t = setup w₂ t := by
  unfold setup
  simp only [h.lookup, h.listen, h.control, h.pid]

/-! ## Facts about the example runs -/

/-- A state computed by `headState` is a loop head of the run. -/
theorem loopHead_of_headState {w : World} {t : TraceRoute} :
    ∀ (n : Nat) {s : State}, headState w t n = some s → LoopHead w t ((n : Int) + 1) s := by
  intro n
  induction n with
  | zero =>
    intro s h
    unfold headState at h
    split at h
    · rename_i s' hs
      simp only [Option.some.injEq] at h
      subst h
      simpa using LoopHead.init hs
    · simp at h
  | succ n ih =>
    intro s h
    unfold headState at h
    split at h
    · simp at h
    · rename_i s₁ hs₁
      split at h
      · rename_i hlt
        split at h
        · rename_i s' hb
          simp only [Option.some.injEq] at h
          subst h
          simpa using LoopHead.step (ih hs₁) hlt hb
        · simp at h
      · simp at h

/-- The example run reaches TTL 2 in state `exS1`. -/
theorem exWorld_head2 : LoopHead exWorld exT 2 exS1 := loopHead_of_headState 1 rfl

/-- The example run reaches TTL 4 in state `exS3`. -/
theorem exWorld_head4 : LoopHead exWorld exT 4 exS3 := loopHead_of_headState 3 rfl

/-- The run with the fatal error reaches TTL 2 in state `exS1`. -/
theorem exWorldFatal_head2 : LoopHead exWorldFatal exT 2 exS1 := loopHead_of_headState 1 rfl

/-- In the silent world no probe fails fatally or is answered. -/
theorem exWorldSilent_continues (i : Int) :
    (∀ err, ¬ Fatal exWorldSilent i err) ∧
    ∀ peer rm, Answered exWorldSilent i peer rm → rm.Type_ ≠ ICMPTypeEchoReply := by
  refine ⟨?_, ?_⟩
  · intro err h
    rcases h with h | ⟨-, h | ⟨-, h | ⟨-, h | ⟨-, ⟨h, hto⟩ | ⟨b, peer, h, -⟩⟩⟩⟩⟩
    · cases h
    · cases h
    · cases h
    · cases h
    · cases h
      cases hto
    · cases h
  · intro peer rm h
    obtain ⟨-, b, h, -⟩ := h
    cases h

/-- No peer of the example run prints as an asterisk. -/
theorem exWorld_peers (i : Int) (b : Bytes) (peer : Addr)
    (h : (exWorld.probe i).ReadFrom = .ok (b, peer)) : peer.String ≠ "*" := by
  simp only [exWorld, exWorldOf, exAnswer] at h
  split_ifs at h
  · simp only [Except.ok.injEq, Prod.mk.injEq] at h
    obtain ⟨-, rfl⟩ := h
    decide
  · simp only [Except.ok.injEq, Prod.mk.injEq] at h
    obtain ⟨-, rfl⟩ := h
    decide
  · simp only [Except.ok.injEq, Prod.mk.injEq] at h
    obtain ⟨-, rfl⟩ := h
    decide

/-- The answers of scenario B. -/
theorem exWorldB_answered (j : Int) (h1 : 1 ≤ j) (h3 : j ≤ 3) :
    Answered exWorldB j (exPeerB j) (exMsgB j) := by
  have : j = 1 ∨ j = 2 ∨ j = 3 := by omega
  rcases this with rfl | rfl | rfl
  · exact ⟨⟨⟨_, rfl⟩, rfl, rfl, rfl⟩, _, rfl, rfl⟩
  · exact ⟨⟨⟨_, rfl⟩, rfl, rfl, rfl⟩, _, rfl, rfl⟩
  · exact ⟨⟨⟨_, rfl⟩, rfl, rfl, rfl⟩, _, rfl, rfl⟩

/-- The first two answers of scenario B are Time Exceeded. -/
theorem exWorldB_timeExceeded (j : Int) (h1 : 1 ≤ j) (h3 : j < 3) :
    (exMsgB j).Type_ = ICMPTypeTimeExceeded := by
  have : j = 1 ∨ j = 2 := by omega
  rcases this with rfl | rfl <;> rfl

/-- The two example worlds differ only in message contents. -/
theorem exWorld_sameButContent : SameButContent exWorld exWorldOther exT := by
  refine ⟨rfl, rfl, rfl, rfl, fun _ => rfl, fun _ => rfl, fun _ => rfl, fun _ => rfl,
    fun _ => rfl, fun _ => rfl, ?_⟩
  intro i
  by_cases h1 : i = 1
  · subst h1
    exact ⟨rfl, rfl⟩
  · by_cases h2 : i = 2
    · subst h2
      exact Or.inr rfl
    · by_cases h3 : i = 3
      · subst h3
        exact ⟨rfl, rfl⟩
      · by_cases h4 : i = 4
        · subst h4
          exact ⟨rfl, rfl⟩
        · simp only [SameAnswer, exWorld, exWorldOther, exWorldOf, exAnswerOther, exAnswer,
            h1, h2, h3, h4, if_false]
          exact ⟨trivial, rfl⟩

/-- Scenario D: the resolver returns only an IPv6 address. -/
theorem Do_ipv6_only :
    (∀ ip ∈ [[32, 1, 13, 184, 0, 0, 0, 0, 0, 0, 0, 0, 0, 0, 0, (1 : Nat)]], To4 ip = []) ∧
    Do exWorldV6 exT = ⟨[], some ErrRemoteAddr, []⟩ :=
  ⟨by decide, rfl⟩

/-- The nil address is not an IPv4 address. -/
theorem To4_ne_nil {d : IP} (h : To4 d ≠ []) : d ≠ [] := by
  intro hd
  subst hd
  exact h (by decide)

/-- When the first IPv4 candidate is `d` and the socket setup succeeds, the loop is
entered with `dst.IP = d`. -/
theorem setup_of_first {w : World} {t : TraceRoute} {pre post : List IP} {d : IP}
    (hres : w.LookupIP t.RemoteAddr = .ok (pre ++ d :: post))
    (hpre : ∀ ip ∈ pre, To4 ip = []) (hd : To4 d ≠ [])
    (hl : w.ListenPacket "ip4:icmp" t.LocalAddr = none) (hc : w.SetControlMessage = none) :
    setup w t =
      .ok { dst := d,
            echo := { ID := w.Getpid % 65536, Seq := 0, Data := [82, 45, 85, 45, 79, 75, 63] },
            ttl := 0, result := [],
            log := [Event.ListenPacket "ip4:icmp" t.LocalAddr] } := by
  unfold setup
  simp only [hres, selectDst_first hpre hd, hl, hc, To4_ne_nil hd, if_false]

/-- At a loop head for `i < MaxTTL`, the packet for TTL `i` is handed to `WriteTo` as
soon as its marshalling and `SetTTL` succeed. -/
theorem Do_sends_at_head {w : World} {t : TraceRoute} {i : Int} {s : State} {wb : Bytes}
    (hhead : LoopHead w t i s) (hlt : i < t.MaxTTL)
    (hwb : w.Marshal (echoRequest w i) = .ok wb) (httl : (w.probe i).SetTTL = none) :
    (wb, i, s.dst) ∈ sends (Do w t).log := by
  obtain ⟨s₀, -, hinv⟩ := loopHead_inv hhead
  rw [← inv_wm hinv] at hwb
  obtain ⟨m, hm⟩ : ∃ m, (t.MaxTTL - i).toNat = m + 1 := ⟨(t.MaxTTL - i).toNat - 1, by omega⟩
  rw [Do_of_loopHead hhead, hm, mem_sends_close]
  simp only [loop, hlt, if_true]
  cases hb : body w i s with
  | next s₁ =>
    obtain ⟨wb₁, r, hwb₁, hs₁, -, -⟩ := body_next hb
    rw [hwb] at hwb₁
    simp only [Except.ok.injEq] at hwb₁
    subst hwb₁
    obtain ⟨rest, lrest, -, h2⟩ := loop_extends w t m (i + 1) s₁
    have hl : s₁.log = s.log ++ [Event.WriteTo wb i s.dst] := by rw [hs₁]
    simp only []
    rw [h2, hl]
    simp [sends_append, sends]
  | ret o =>
    have := body_ret_sent hb hwb httl
    simp only [this]
    simp [sends_append, sends]

/-! ## The claims -/

/-- C1: with `MaxTTL >= 1`, on every return path of `Do` the result list has at most
`MaxTTL - 1` elements and its k-th element (counting from 1) has `ID = k`. -/
theorem Do_result_ids (w : World) (t : TraceRoute) (h : 1 ≤ t.MaxTTL) :
    ((Do w t).result.length : Int) ≤ t.MaxTTL - 1 ∧
    ∀ (k : Nat) (hk : k < (Do w t).result.length), ((Do w t).result[k]).ID = (k : Int) + 1 := by
  rcases Do_cases w t with ⟨o, ho, hD⟩ | ⟨s, hs, -⟩
  · obtain ⟨hres, -, -⟩ := setup_error ho
    have hnil : (Do w t).result = [] := by rw [hD]; exact hres
    refine ⟨?_, ?_⟩
    · rw [hnil]; simp only [List.length_nil]; omega
    · intro k hk
      rw [hnil] at hk
      simp at hk
  · have hO := outInv_Do hs
    refine ⟨?_, ids_getElem hO.ids⟩
    have := hO.len
    omega

/-- The example run has `MaxTTL = 30` and four results with IDs 1 to 4. -/
theorem Do_result_ids_witness :
    1 ≤ exT.MaxTTL ∧
    (((Do exWorld exT).result.length : Int) ≤ exT.MaxTTL - 1 ∧
      ∀ (k : Nat) (hk : k < (Do exWorld exT).result.length),
        ((Do exWorld exT).result[k]).ID = (k : Int) + 1) :=
  ⟨by decide, Do_result_ids exWorld exT (by decide)⟩

/-- C2: if the probe at TTL `i` is answered by a message that parses as Echo Reply,
`Do` returns a nil error and the results so far followed by the hop of that reply,
`i` elements in all, the last one having `ID = i` and the peer as `IP`; no packet with a
TTL above `i` is sent. -/
theorem Do_echo_reply (w : World) (t : TraceRoute) (i : Int) (s : State) (peer : Addr)
    (rm : Message) (hhead : LoopHead w t i s) (hlt : i < t.MaxTTL)
    (hans : Answered w i peer rm) (hty : rm.Type_ = ICMPTypeEchoReply) :
    (Do w t).err = none ∧
    (Do w t).result = s.result ++
      [{ ID := i, IP := peer.String, RTT := Since (w.probe i).begin (w.probe i).now }] ∧
    ((Do w t).result.length : Int) = i ∧
    (Do w t).result.getLast? =
      some { ID := i, IP := peer.String, RTT := Since (w.probe i).begin (w.probe i).now } ∧
    ∀ p ∈ sends (Do w t).log, p.2.1 ≤ i := by
  obtain ⟨s₀, -, hinv⟩ := loopHead_inv hhead
  obtain ⟨wb, -, hb⟩ := body_echoReply hinv hans hty
  have hD := Do_of_ret hhead hlt hb
  have hlen := hinv.len
  refine ⟨by rw [hD]; rfl, by rw [hD]; rfl, ?_, ?_, ?_⟩
  · rw [hD]
    simp only [Outcome.close, List.length_append, List.length_singleton]
    omega
  · rw [hD]
    simp [Outcome.close]
  · intro p hp
    rw [hD, mem_sends_close] at hp
    simp only [sends_append, sends, List.mem_append, List.mem_singleton] at hp
    rcases hp with hp | rfl
    · exact le_of_lt (inv_sends_lt hinv p hp)
    · exact le_refl _

/-- In the example run the probe at TTL 4 is answered by an Echo Reply. -/
theorem Do_echo_reply_witness :
    LoopHead exWorld exT 4 exS3 ∧
    ((Do exWorld exT).err = none ∧
     (Do exWorld exT).result = exS3.result ++ [{ ID := 4, IP := "10.0.0.9", RTT := 7 }] ∧
     ((Do exWorld exT).result.length : Int) = 4 ∧
     (Do exWorld exT).result.getLast? = some { ID := 4, IP := "10.0.0.9", RTT := 7 } ∧
     ∀ p ∈ sends (Do exWorld exT).log, p.2.1 ≤ 4) :=
  ⟨exWorld_head4,
   Do_echo_reply exWorld exT 4 exS3 (exAddr "10.0.0.9") ⟨0, 0, 0, .Echo ⟨9, 9, [82]⟩⟩
     exWorld_head4 (by decide) ⟨⟨⟨_, rfl⟩, rfl, rfl, rfl⟩, _, rfl, rfl⟩ rfl⟩

/-- C3: if the probe at TTL `i` hits a fatal failure `err`, `Do` returns `err` and
exactly the results held when the iteration began, which are the `i - 1` results with
`ID` 1 to `i - 1`; no packet with a TTL above `i` is sent. -/
theorem Do_fatal (w : World) (t : TraceRoute) (i : Int) (s : State) (err : Error)
    (hhead : LoopHead w t i s) (hlt : i < t.MaxTTL) (hfatal : Fatal w i err) :
    (Do w t).err = some err ∧
    (Do w t).result = s.result ∧
    ((Do w t).result.length : Int) = i - 1 ∧
    (Do w t).result.map (fun r => r.ID) = upTo (Do w t).result.length ∧
    ∀ p ∈ sends (Do w t).log, p.2.1 ≤ i := by
  obtain ⟨s₀, -, hinv⟩ := loopHead_inv hhead
  obtain ⟨log, hb, hlog⟩ := body_fatal hinv hfatal
  have hD := Do_of_ret hhead hlt hb
  have hres : (Do w t).result = s.result := by rw [hD]; rfl
  refine ⟨by rw [hD]; rfl, hres, ?_, ?_, ?_⟩
  · rw [hres]; exact hinv.len
  · rw [hres]; exact hinv.ids
  · intro p hp
    rw [hD, mem_sends_close] at hp
    rcases hlog with rfl | ⟨wb, rfl⟩
    · exact le_of_lt (inv_sends_lt hinv p hp)
    · simp only [sends_append, sends, List.mem_append, List.mem_singleton] at hp
      rcases hp with hp | rfl
      · exact le_of_lt (inv_sends_lt hinv p hp)
      · exact le_refl _

/-- A receive error at TTL 2 that is no timeout ends the run with one result. -/
theorem Do_fatal_witness :
    Fatal exWorldFatal 2 ⟨"connection refused", false⟩ ∧
    ((Do exWorldFatal exT).err = some ⟨"connection refused", false⟩ ∧
     (Do exWorldFatal exT).result = [{ ID := 1, IP := "10.0.0.1", RTT := 7 }] ∧
     ((Do exWorldFatal exT).result.length : Int) = 2 - 1 ∧
     (Do exWorldFatal exT).result.map (fun r => r.ID) = upTo (Do exWorldFatal exT).result.length ∧
     ∀ p ∈ sends (Do exWorldFatal exT).log, p.2.1 ≤ 2) :=
  have hf : Fatal exWorldFatal 2 ⟨"connection refused", false⟩ :=
    Or.inr ⟨⟨_, rfl⟩, Or.inr ⟨rfl, Or.inr ⟨rfl, Or.inr ⟨rfl, Or.inl ⟨rfl, rfl⟩⟩⟩⟩⟩
  ⟨hf, Do_fatal exWorldFatal exT 2 exS1 _ exWorldFatal_head2 (by decide) hf⟩

/-- C4: if the receive for the probe at TTL `i` times out, or the received message
parses to a type other than Time Exceeded and Echo Reply, the iteration appends
exactly the result with `ID = i`, `IP = "*"` and zero `RTT` and does not return: the run
reaches the loop head for `i + 1`, the result stays in the list that `Do` returns, and
when `i + 1 < MaxTTL` the packet for TTL `i + 1` is handed to `WriteTo` as soon as its
marshalling and `SetTTL` succeed. -/
theorem Do_no_answer (w : World) (t : TraceRoute) (i : Int) (s : State)
    (hhead : LoopHead w t i s) (hlt : i < t.MaxTTL)
    (h : TimedOut w i ∨ ∃ peer rm, Answered w i peer rm ∧
      rm.Type_ ≠ ICMPTypeTimeExceeded ∧ rm.Type_ ≠ ICMPTypeEchoReply) :
    ∃ s', body w i s = .next s' ∧
      s'.result = s.result ++ [{ ID := i, IP := "*", RTT := 0 }] ∧
      LoopHead w t (i + 1) s' ∧
      (∃ rest, (Do w t).result = s.result ++ [{ ID := i, IP := "*", RTT := 0 }] ++ rest) ∧
      (i + 1 < t.MaxTTL → ∀ wb, w.Marshal (echoRequest w (i + 1)) = .ok wb →
        (w.probe (i + 1)).SetTTL = none → (wb, i + 1, s.dst) ∈ sends (Do w t).log) := by
  obtain ⟨s₀, -, hinv⟩ := loopHead_inv hhead
  obtain ⟨wb, -, hb⟩ := body_star hinv h
  refine ⟨_, hb, rfl, LoopHead.step hhead hlt hb, ?_, ?_⟩
  · rw [Do_of_loopHead (LoopHead.step hhead hlt hb)]
    obtain ⟨rest, lrest, h1, -⟩ := loop_extends w t (t.MaxTTL - (i + 1)).toNat (i + 1)
      { dst := s.dst, echo := { s.echo with Seq := i }, ttl := i,
        result := s.result ++ [{ ID := i, IP := "*", RTT := 0 }],
        log := s.log ++ [Event.WriteTo wb i s.dst] }
    exact ⟨rest, h1⟩
  · intro hlt' wb' hwb' httl'
    have hhead' := LoopHead.step hhead hlt hb
    have hinv' := inv_next hinv hlt hb
    rw [← inv_wm hinv'] at hwb'
    obtain ⟨m, hm⟩ : ∃ m, (t.MaxTTL - (i + 1)).toNat = m + 1 :=
      ⟨(t.MaxTTL - (i + 1)).toNat - 1, by omega⟩
    rw [Do_of_loopHead hhead', hm, mem_sends_close]
    simp only [loop, hlt', if_true]
    cases hb' : body w (i + 1) _ with
    | next s₂ =>
      obtain ⟨wb₂, r, hwb₂, rfl, -, -⟩ := body_next hb'
      rw [hwb'] at hwb₂
      simp only [Except.ok.injEq] at hwb₂
      subst hwb₂
      obtain ⟨rest, lrest, -, h2⟩ := loop_extends w t m (i + 1 + 1)
        { dst := s.dst, echo := { s.echo with Seq := i + 1 }, ttl := i + 1,
          result := s.result ++ [{ ID := i, IP := "*", RTT := 0 }] ++ [r],
          log := s.log ++ [Event.WriteTo wb i s.dst] ++ [Event.WriteTo wb' (i + 1) s.dst] }
      simp only [] at h2 ⊢
      rw [h2]
      simp [sends_append, sends]
    | ret o =>
      have := body_ret_sent hb' hwb' httl'
      simp only [this]
      simp [sends_append, sends]

/-- In the example run the receive at TTL 2 times out and TTL 3 is probed. -/
theorem Do_no_answer_witness :
    TimedOut exWorld 2 ∧
    ∃ s', body exWorld 2 exS1 = .next s' ∧
      s'.result = exS1.result ++ [{ ID := 2, IP := "*", RTT := 0 }] ∧
      LoopHead exWorld exT (2 + 1) s' ∧
      (∃ rest, (Do exWorld exT).result =
        exS1.result ++ [{ ID := 2, IP := "*", RTT := 0 }] ++ rest) ∧
      (2 + 1 < exT.MaxTTL → ∀ wb, exWorld.Marshal (echoRequest exWorld (2 + 1)) = .ok wb →
        (exWorld.probe (2 + 1)).SetTTL = none →
        (wb, 2 + 1, exS1.dst) ∈ sends (Do exWorld exT).log) :=
  have ht : TimedOut exWorld 2 := ⟨⟨⟨_, rfl⟩, rfl, rfl, rfl⟩, _, rfl, rfl⟩
  ⟨ht, Do_no_answer exWorld exT 2 exS1 exWorld_head2 (by decide) (Or.inl ht)⟩

/-- C5: when the resolver returns candidates of which none is IPv4, `Do` returns no
result and `ErrRemoteAddr` and performs no socket operation.  When some candidate is
IPv4, the resolver loop selects the first IPv4 candidate `d` of the list: `dst.IP` is
`d`, the loop is entered with that destination whenever the socket setup succeeds,
every packet is sent to `d`, and the packet for TTL 1 goes to `d` as soon as
`1 < MaxTTL` and its marshalling and `SetTTL` succeed. -/
theorem Do_remote_addr (w : World) (t : TraceRoute) (ips : List IP)
    (hres : w.LookupIP t.RemoteAddr = .ok ips) :
    ((∀ ip ∈ ips, To4 ip = []) → Do w t = ⟨[], some ErrRemoteAddr, []⟩) ∧
    (∀ (pre post : List IP) (d : IP), ips = pre ++ d :: post → (∀ ip ∈ pre, To4 ip = []) →
      To4 d ≠ [] →
      selectDst ips = d ∧
      (∀ s, setup w t = .ok s → s.dst = d) ∧
      (w.ListenPacket "ip4:icmp" t.LocalAddr = none → w.SetControlMessage = none →
        ∃ s, setup w t = .ok s ∧ s.dst = d ∧ LoopHead w t 1 s) ∧
      (∀ p ∈ sends (Do w t).log, p.2.2 = d) ∧
      (w.ListenPacket "ip4:icmp" t.LocalAddr = none → w.SetControlMessage = none →
        1 < t.MaxTTL → ∀ wb, w.Marshal (echoRequest w 1) = .ok wb →
        (w.probe 1).SetTTL = none → (wb, 1, d) ∈ sends (Do w t).log)) := by
  refine ⟨?_, ?_⟩
  · intro h
    simp [Do, setup, hres, selectDst_none h]
  · intro pre post d hips hpre hd
    subst hips
    have hsel : selectDst (pre ++ d :: post) = d := selectDst_first hpre hd
    have hdst : ∀ s, setup w t = .ok s → s.dst = d := by
      intro s hs
      obtain ⟨ips', hips', -, hs'⟩ := setup_ok hs
      rw [hres] at hips'
      simp only [Except.ok.injEq] at hips'
      rw [hs', ← hips']
      exact hsel
    have hok : w.ListenPacket "ip4:icmp" t.LocalAddr = none → w.SetControlMessage = none →
        ∃ s, setup w t = .ok s ∧ s.dst = d ∧ LoopHead w t 1 s := by
      intro hl hc
      have hs := setup_of_first hres hpre hd hl hc
      exact ⟨_, hs, rfl, LoopHead.init hs⟩
    refine ⟨hsel, hdst, hok, ?_, ?_⟩
    · intro p hp
      rcases Do_cases w t with ⟨o, ho, hD⟩ | ⟨s, hs, -⟩
      · rw [hD, (setup_error ho).2.2] at hp
        simp at hp
      · rw [← hdst s hs]
        exact ((outInv_Do hs).pkts p hp).1
    · intro hl hc hlt wb hwb httl
      obtain ⟨s, -, hsd, hhead⟩ := hok hl hc
      rw [← hsd]
      exact Do_sends_at_head hhead hlt hwb httl

/-- A run whose first IPv4 candidate is the third of four: the loop is entered with
destination 10.0.0.9 and the packet for TTL 1 is sent there; a run whose only
candidate is IPv6 returns `ErrRemoteAddr` without any socket operation. -/
theorem Do_remote_addr_witness :
    (exWorldLate.LookupIP exT.RemoteAddr = .ok exIPsLate ∧
      selectDst exIPsLate = [10, 0, 0, 9] ∧
      (∀ s, setup exWorldLate exT = .ok s → s.dst = [10, 0, 0, 9]) ∧
      (∃ s, setup exWorldLate exT = .ok s ∧ s.dst = [10, 0, 0, 9] ∧
        LoopHead exWorldLate exT 1 s) ∧
      (∀ p ∈ sends (Do exWorldLate exT).log, p.2.2 = [10, 0, 0, 9]) ∧
      ([8, 0, 0, 0, 17, 112, 0, 1, 82, 45, 85, 45, 79, 75, 63], 1, [10, 0, 0, 9]) ∈
        sends (Do exWorldLate exT).log) ∧
    ((∀ ip ∈ [[32, 1, 13, 184, 0, 0, 0, 0, 0, 0, 0, 0, 0, 0, 0, (1 : Nat)]], To4 ip = []) ∧
      Do exWorldV6 exT = ⟨[], some ErrRemoteAddr, []⟩) :=
  have h := (Do_remote_addr exWorldLate exT exIPsLate rfl).2
    [[32, 1, 13, 184, 0, 0, 0, 0, 0, 0, 0, 0, 0, 0, 0, 1],
     [32, 1, 13, 184, 0, 0, 0, 0, 0, 0, 0, 0, 0, 0, 0, 2]]
    [[10, 0, 0, 7]] [10, 0, 0, 9] rfl (by decide) (by decide)
  have hv6 : ∀ ip ∈ [[32, 1, 13, 184, 0, 0, 0, 0, 0, 0, 0, 0, 0, 0, 0, (1 : Nat)]],
      To4 ip = [] := by decide
  ⟨⟨rfl, h.1, h.2.1, h.2.2.1 rfl rfl, h.2.2.2.1,
    h.2.2.2.2 rfl rfl (by decide) _ rfl rfl⟩,
   ⟨hv6, (Do_remote_addr exWorldV6 exT _ rfl).1 hv6⟩⟩

/-- C6 as stated fails for `MaxTTL = 0`: the setup succeeds, there is no probe at all,
`Do` returns a nil error and no result, and the number of results is not `MaxTTL - 1`. -/
theorem Do_exhausts_counterexample :
    (∃ s, setup exWorld exT0 = .ok s) ∧
    (∀ i, 1 ≤ i → i < exT0.MaxTTL →
      (∀ err, ¬ Fatal exWorld i err) ∧
      ∀ peer rm, Answered exWorld i peer rm → rm.Type_ ≠ ICMPTypeEchoReply) ∧
    ¬ ((Do exWorld exT0).err = none ∧
       ((Do exWorld exT0).result.length : Int) = exT0.MaxTTL - 1) := by
  refine ⟨⟨_, rfl⟩, ?_, ?_⟩
  · intro i h1 h2
    have : exT0.MaxTTL = 0 := rfl
    omega
  · decide

/-- C6 (as amended): when the setup succeeds and no probe at TTL 1 .. MaxTTL-1 receives
an Echo Reply or hits a fatal failure, `Do` returns a nil error and one result per
value from 1 below `MaxTTL`, that is `MaxTTL - 1` results when `MaxTTL >= 1` and none
otherwise; with `MaxTTL = 1` it only opens and closes the socket. -/
theorem Do_exhausts (w : World) (t : TraceRoute) (hsetup : ∃ s, setup w t = .ok s)
    (hcont : ∀ i, 1 ≤ i → i < t.MaxTTL →
      (∀ err, ¬ Fatal w i err) ∧
      ∀ peer rm, Answered w i peer rm → rm.Type_ ≠ ICMPTypeEchoReply) :
    (Do w t).err = none ∧
    (Do w t).result.length = (t.MaxTTL - 1).toNat ∧
    (1 ≤ t.MaxTTL → ((Do w t).result.length : Int) = t.MaxTTL - 1) ∧
    (t.MaxTTL = 1 →
      Do w t = ⟨[], none, [Event.ListenPacket "ip4:icmp" t.LocalAddr, Event.Close]⟩) := by
  obtain ⟨s, hs⟩ := hsetup
  have hD : Do w t = (loop w t (t.MaxTTL - 1).toNat 1 s).close := by simp [Do, hs]
  have key : (loop w t (t.MaxTTL - 1).toNat 1 s).err = none ∧
      (loop w t (t.MaxTTL - 1).toNat 1 s).result.length = (t.MaxTTL - 1).toNat := by
    refine loop_induct (Inv w t s.dst)
      (fun o => o.err = none ∧ o.result.length = (t.MaxTTL - 1).toNat)
      (fun i s₁ s₂ hP hlt hb => inv_next hP hlt hb) ?_ ?_ _ 1 s (le_refl _) (inv_init hs)
    · intro i s₁ o hP hlt hb
      exfalso
      rcases body_ret_cause hP hb with ⟨err, hf⟩ | ⟨peer, rm, ha, hty⟩
      · exact (hcont i hP.pos hlt).1 err hf
      · exact (hcont i hP.pos hlt).2 peer rm ha hty
    · intro i s₁ hP hge
      refine ⟨rfl, ?_⟩
      have := hP.len
      have := hP.le
      show s₁.result.length = (t.MaxTTL - 1).toNat
      omega
  have hlen : (Do w t).result.length = (t.MaxTTL - 1).toNat := by rw [hD]; exact key.2
  refine ⟨by rw [hD]; exact key.1, hlen, ?_, ?_⟩
  · intro h1
    rw [hlen]
    omega
  · intro h1
    obtain ⟨ips, -, -, rfl⟩ := setup_ok hs
    rw [hD, h1]
    rfl

/-- With `MaxTTL = 5` and silent hops the run returns four results and no error. -/
theorem Do_exhausts_witness :
    (∃ s, setup exWorldSilent exT5 = .ok s) ∧
    ((Do exWorldSilent exT5).err = none ∧
     (Do exWorldSilent exT5).result.length = (exT5.MaxTTL - 1).toNat ∧
     (1 ≤ exT5.MaxTTL → ((Do exWorldSilent exT5).result.length : Int) = exT5.MaxTTL - 1) ∧
     (exT5.MaxTTL = 1 →
       Do exWorldSilent exT5 =
         ⟨[], none, [Event.ListenPacket "ip4:icmp" exT5.LocalAddr, Event.Close]⟩)) :=
  ⟨⟨_, rfl⟩, Do_exhausts exWorldSilent exT5 ⟨_, rfl⟩ (fun i _ _ => exWorldSilent_continues i)⟩

/-- C7: provided no peer address prints as "*", every element of the result list of
`Do` whose `IP` is "*" has `RTT` zero. -/
theorem Do_star_rtt (w : World) (t : TraceRoute)
    (hpeer : ∀ i b peer, (w.probe i).ReadFrom = .ok (b, peer) → peer.String ≠ "*") :
    ∀ r ∈ (Do w t).result, r.IP = "*" → r.RTT = 0 := by
  rcases Do_cases w t with ⟨o, ho, hD⟩ | ⟨s, hs, hD⟩
  · intro r hr
    rw [hD, (setup_error ho).1] at hr
    simp at hr
  · rw [hD]
    show ∀ r ∈ (loop w t (t.MaxTTL - 1).toNat 1 s).result, r.IP = "*" → r.RTT = 0
    refine loop_induct (fun _ s => ∀ r ∈ s.result, r.IP = "*" → r.RTT = 0)
      (fun o => ∀ r ∈ o.result, r.IP = "*" → r.RTT = 0) ?_ ?_ ?_ _ 1 s (le_refl _) ?_
    · intro i s₁ s₂ hP _ hb r hr hstar
      obtain ⟨wb, r', -, rfl, -, hr'⟩ := body_next hb
      simp only [List.mem_append, List.mem_singleton] at hr
      rcases hr with hr | rfl
      · exact hP r hr hstar
      · rcases hr' with ⟨-, h0⟩ | ⟨b, peer, hrd, hip⟩
        · exact h0
        · exact absurd (hip ▸ hstar) (hpeer i b peer hrd)
    · intro i s₁ o hP _ hb r hr hstar
      rcases (body_ret hb).1 with hres | ⟨b, peer, hrd, -, hres⟩
      · rw [hres] at hr
        exact hP r hr hstar
      · rw [hres] at hr
        simp only [List.mem_append, List.mem_singleton] at hr
        rcases hr with hr | rfl
        · exact hP r hr hstar
        · exact absurd hstar (hpeer i b peer hrd)
    · intro i s₁ hP _
      exact hP
    · obtain ⟨ips, -, -, rfl⟩ := setup_ok hs
      simp

/-- The silent hops of the example run carry a zero `RTT`. -/
theorem Do_star_rtt_witness :
    (∀ i b peer, (exWorld.probe i).ReadFrom = .ok (b, peer) → peer.String ≠ "*") ∧
    ∀ r ∈ (Do exWorld exT).result, r.IP = "*" → r.RTT = 0 :=
  ⟨exWorld_peers, Do_star_rtt exWorld exT exWorld_peers⟩

/-- C8: for `1 <= k <= MaxTTL - 1`, if the setup succeeds, the probes at TTL 1 .. k-1 are
each answered by Time Exceeded and the probe at TTL `k` by an Echo Reply, `Do` returns a
nil error and exactly `k` results, the j-th with `ID = j`, the string form of the peer
that answered probe `j` as `IP`, and as `RTT` the time between the clock reading taken
before sending probe `j` and the one taken when its answer is classified. -/
theorem Do_reaches_destination (w : World) (t : TraceRoute) (k : Nat)
    (peer : Int → Addr) (rm : Int → Message) (hsetup : ∃ s, setup w t = .ok s)
    (hk1 : 1 ≤ k) (hk : (k : Int) ≤ t.MaxTTL - 1)
    (hans : ∀ j : Int, 1 ≤ j → j ≤ k → Answered w j (peer j) (rm j))
    (hte : ∀ j : Int, 1 ≤ j → j < k → (rm j).Type_ = ICMPTypeTimeExceeded)
    (her : (rm k).Type_ = ICMPTypeEchoReply) :
    (Do w t).err = none ∧
    (Do w t).result.length = k ∧
    ∀ (j : Nat), j < k →
      (Do w t).result[j]? = some
        { ID := (j : Int) + 1, IP := (peer ((j : Int) + 1)).String,
          RTT := Since (w.probe ((j : Int) + 1)).begin (w.probe ((j : Int) + 1)).now } := by
  obtain ⟨s₀, hs₀⟩ := hsetup
  obtain ⟨n, rfl⟩ : ∃ n, k = n + 1 := ⟨k - 1, by omega⟩
  obtain ⟨s, hhead, hres⟩ := loopHead_timeExceeded hs₀ peer rm n (by push_cast at hk; omega)
    (fun j h1 h2 => ⟨hans j h1 (by push_cast; omega), hte j h1 (by push_cast; omega)⟩)
  have hlt : (n : Int) + 1 < t.MaxTTL := by push_cast at hk; omega
  obtain ⟨s', -, hinv⟩ := loopHead_inv hhead
  have ha := hans ((n : Int) + 1) (by omega) (by push_cast; omega)
  have her' : (rm ((n : Int) + 1)).Type_ = ICMPTypeEchoReply := by simpa using her
  obtain ⟨wb, -, hb⟩ := body_echoReply hinv ha her'
  have hD := Do_of_ret hhead hlt hb
  have hresD : (Do w t).result = hops w peer (n + 1) := by
    rw [hops_succ, ← hres, hD]
    rfl
  refine ⟨by rw [hD]; rfl, ?_, ?_⟩
  · rw [hresD, hops, List.length_map, List.length_range]
  · intro j hj
    rw [hresD, hops, List.getElem?_map, List.getElem?_range hj]
    rfl

/-- Scenario B: three results, the third from the destination. -/
theorem Do_reaches_destination_witness :
    (Do exWorldB exT).err = none ∧
    (Do exWorldB exT).result.length = 3 ∧
    ∀ (j : Nat), j < 3 →
      (Do exWorldB exT).result[j]? = some
        { ID := (j : Int) + 1, IP := (exPeerB ((j : Int) + 1)).String,
          RTT := Since (exWorldB.probe ((j : Int) + 1)).begin
                   (exWorldB.probe ((j : Int) + 1)).now } :=
  Do_reaches_destination exWorldB exT 3 exPeerB exMsgB ⟨_, rfl⟩ (by decide) (by decide)
    exWorldB_answered exWorldB_timeExceeded rfl

/-- C9: the j-th packet handed to `WriteTo` (j = 1, 2, 3, ...) is the marshalled Echo
Request (type 8, code 0) with sequence number j and the identifier of the run, and it
is sent while the socket's TTL is j; the TTLs of the packets sent are 1, 2, 3, ... in
this order. -/
theorem Do_nth_send (w : World) (t : TraceRoute) :
    (sends (Do w t).log).map (fun p => p.2.1) = upTo (sends (Do w t).log).length ∧
    ∀ (j : Nat) (hj : j < (sends (Do w t).log).length),
      ((sends (Do w t).log)[j]).2.1 = (j : Int) + 1 ∧
      w.Marshal { Type_ := 8, Code := 0, Checksum := 0,
                  Body := .Echo { ID := w.Getpid % 65536, Seq := (j : Int) + 1,
                                  Data := [82, 45, 85, 45, 79, 75, 63] } }
        = .ok ((sends (Do w t).log)[j]).1 := by
  rcases Do_cases w t with ⟨o, ho, hD⟩ | ⟨s, hs, -⟩
  · have hnil : sends (Do w t).log = [] := by rw [hD]; exact (setup_error ho).2.2
    rw [hnil]
    refine ⟨by simp [upTo], ?_⟩
    intro j hj
    simp at hj
  · have hO := outInv_Do hs
    refine ⟨hO.ttls, ?_⟩
    intro j hj
    have hk' : j < (upTo (sends (Do w t).log).length).length := by rw [upTo_length]; exact hj
    have h1 : ((sends (Do w t).log).map (fun p => p.2.1))[j]? =
        (upTo (sends (Do w t).log).length)[j]? := by rw [hO.ttls]
    rw [List.getElem?_map, List.getElem?_eq_getElem hj, List.getElem?_eq_getElem hk',
      upTo_getElem] at h1
    have httl : ((sends (Do w t).log)[j]).2.1 = (j : Int) + 1 := by simpa using h1
    refine ⟨httl, ?_⟩
    have := (hO.pkts _ (List.getElem_mem hj)).2
    rw [httl] at this
    exact this

/-- The example run sends four packets, with TTL and sequence number 1 to 4. -/
theorem Do_nth_send_witness :
    (sends (Do exWorld exT).log).length = 4 ∧
    ((sends (Do exWorld exT).log).map (fun p => p.2.1) =
       upTo (sends (Do exWorld exT).log).length ∧
     ∀ (j : Nat) (hj : j < (sends (Do exWorld exT).log).length),
       ((sends (Do exWorld exT).log)[j]).2.1 = (j : Int) + 1 ∧
       exWorld.Marshal { Type_ := 8, Code := 0, Checksum := 0,
                         Body := .Echo { ID := exWorld.Getpid % 65536, Seq := (j : Int) + 1,
                                         Data := [82, 45, 85, 45, 79, 75, 63] } }
         = .ok ((sends (Do exWorld exT).log)[j]).1) :=
  ⟨rfl, Do_nth_send exWorld exT⟩

/-- C10: the classification of a received message depends only on its type.  Two runs
over the same config that agree on everything but the contents of the received
messages (bytes, code, checksum, body) return the same results and the same error; and
an Echo Reply whose identifier or sequence number is not that of the probe just sent
still ends the run with a nil error and the hop of its peer as last result. -/
theorem Do_type_only (w₁ w₂ : World) (t : TraceRoute) (h : SameButContent w₁ w₂ t) :
    ((Do w₁ t).result = (Do w₂ t).result ∧ (Do w₁ t).err = (Do w₂ t).err) ∧
    ∀ (i : Int) (s : State) (peer : Addr) (rm : Message) (e : Echo),
      LoopHead w₁ t i s → i < t.MaxTTL → Answered w₁ i peer rm →
      rm.Type_ = ICMPTypeEchoReply → rm.Body = .Echo e →
      (e.ID ≠ w₁.Getpid % 65536 ∨ e.Seq ≠ i) →
      (Do w₁ t).err = none ∧
      (Do w₁ t).result = s.result ++
        [{ ID := i, IP := peer.String, RTT := Since (w₁.probe i).begin (w₁.probe i).now }] := by
  refine ⟨?_, ?_⟩
  · have hD : Do w₁ t = Do w₂ t := by
      unfold Do
      rw [setup_congr h]
      cases setup w₂ t with
      | error o => rfl
      | ok s => simp only [loop_congr h]
    rw [hD]
    exact ⟨rfl, rfl⟩
  · intro i s peer rm e hhead hlt hans hty _ _
    obtain ⟨s₀, -, hinv⟩ := loopHead_inv hhead
    obtain ⟨wb, -, hb⟩ := body_echoReply hinv hans hty
    have hD := Do_of_ret hhead hlt hb
    exact ⟨by rw [hD]; rfl, by rw [hD]; rfl⟩

/-- The two example runs return the same results; the Echo Reply at TTL 4 carries
identifier 9 and sequence number 9 and still ends the run. -/
theorem Do_type_only_witness :
    SameButContent exWorld exWorldOther exT ∧
    ((Do exWorld exT).result = (Do exWorldOther exT).result ∧
      (Do exWorld exT).err = (Do exWorldOther exT).err) ∧
    ((Do exWorld exT).err = none ∧
      (Do exWorld exT).result = exS3.result ++ [{ ID := 4, IP := "10.0.0.9", RTT := 7 }]) :=
  ⟨exWorld_sameButContent, (Do_type_only exWorld exWorldOther exT exWorld_sameButContent).1,
   (Do_type_only exWorld exWorldOther exT exWorld_sameButContent).2 4 exS3 (exAddr "10.0.0.9")
     ⟨0, 0, 0, .Echo ⟨9, 9, [82]⟩⟩ ⟨9, 9, [82]⟩ exWorld_head4 (by decide)
     ⟨⟨⟨_, rfl⟩, rfl, rfl, rfl⟩, _, rfl, rfl⟩ rfl rfl (Or.inl (by decide))⟩

end Traceroute
